import Mathlib

/-!
# Apophenia: the generic model core (`apop_model.c`)

A shallow embedding of the model lifecycle (`apop_model_clear`, `apop_model_free`,
`apop_model_copy`), of the settings hooks defined in `apop_model.c`, and of the
capability dispatchers (`apop_prep`, `apop_estimate`, `apop_p`,
`apop_log_likelihood`).

Conventions of the embedding.

* The C heap is a list of cells; a pointer is an index into it and `NULL` is
  `Option.none`.  `malloc` appends a cell, so a fresh address is never an address
  that was handed out before; `free` empties the cell.  Reading or freeing an empty
  cell, or a cell holding an object of another type, is a `Fault`.
* A C `int` is an `Int` and a `size_t` is a `Nat`.  The conversion of a `size_t` to
  `int` is `to_int`, which wraps modulo 2^32; arithmetic on `int`s is exact, an
  overflow being undefined behaviour of the code.
* A `double` is an element of an abstract type `R`; `exp` and `log` of the C library
  are arguments of the functions that call them.  The runs of `apop_cdf` are stated
  on the type `double`, with the comparison and the rounded division of IEEE 754.
* Function pointers stored in a model are code addresses (`FnPtr`); what the code
  behind an address does is given by an environment `Env`.
-/

namespace Apophenia

/-- An address in the heap. -/
abbrev Ptr := Nat

/-- The address of a function. -/
abbrev FnPtr := Nat

/-- Ways in which a run can stop without returning. -/
inductive Fault where
  /-- a read through a `NULL` pointer -/
  | null_deref
  /-- use of an address that is not live, or holds an object of another type -/
  | invalid_pointer
  /-- a read beyond the end of an array -/
  | out_of_bounds
  /-- an explicit rejection of an argument, with its message -/
  | invalid_argument (msg : String)
  /-- a bound was reached: the nesting of frees, or the range of an `int` counter -/
  | out_of_fuel
  deriving DecidableEq, Repr

/-- The kinds of error written to the error channel. -/
inductive ErrorKind where
  | InvalidArgument
  | UnsupportedOperation
  | NumericalFailure
  deriving DecidableEq, Repr

/-- The fields of `gsl_matrix` used here: extents and row-major contents. -/
structure gsl_matrix (R : Type) where
  size1 : Nat
  size2 : Nat
  data : List R
  deriving DecidableEq, Repr

/-- The fields of `apop_data` used here.  A `gsl_vector` is the list of its
elements, its `size` the length of the list. -/
structure apop_data (R : Type) where
  vector : Option (List R)
  weights : Option (List R)
  matrix : Option (gsl_matrix R)
  title : String
  deriving DecidableEq, Repr

/-- The function pointers found in the `copy` and `free` fields of a settings entry:
one of the four hooks defined in `apop_model.c`, or some other function. -/
inductive HookFn where
  | apop_pm_settings_copy
  | apop_pm_settings_free
  | apop_cdf_settings_copy
  | apop_cdf_settings_free
  | other (f : FnPtr)
  deriving DecidableEq, Repr

/-- One entry of a model's settings array (`apop_settings_type`). -/
structure apop_settings_type where
  name : String
  setting_group : Option Ptr
  copy : Option HookFn
  free : Option HookFn
  deriving DecidableEq, Repr

/-- The settings group of `apop_parameter_model` (`apop_pm_settings`). -/
structure apop_pm_settings where
  base : Option Ptr
  index : Int
  rng : Option Ptr
  draws : Int
  own_rng : Int
  deriving DecidableEq, Repr

/-- The settings group of the `apop_cdf` fallback (`apop_cdf_settings`). -/
structure apop_cdf_settings where
  cdf_model : Option Ptr
  draws : Int
  rng : Option Ptr
  deriving DecidableEq, Repr

/-- The model descriptor (`apop_model`): name, size policy, settings array, owned
containers, back-reference to the data, operation slots and the `more` blob. -/
structure apop_model where
  name : String
  vbase : Int
  m1base : Int
  m2base : Int
  dsize : Int
  settings : Option Ptr
  parameters : Option Ptr
  data : Option Ptr
  info : Option Ptr
  estimate : Option FnPtr
  p : Option FnPtr
  log_likelihood : Option FnPtr
  score : Option FnPtr
  predict : Option FnPtr
  parameter_model : Option FnPtr
  cdf : Option FnPtr
  draw : Option FnPtr
  prep : Option FnPtr
  print : Option FnPtr
  more : Option Ptr
  more_size : Nat
  deriving DecidableEq, Repr

/-- What a heap cell can hold. -/
inductive Obj (R : Type) where
  | data (d : apop_data R)
  | rng (seed : Int)
  | pm (s : apop_pm_settings)
  | cdf (s : apop_cdf_settings)
  | store (entries : List apop_settings_type)
  | model (m : apop_model)
  | bytes (b : List Nat)
  deriving DecidableEq, Repr

/-- The state of the program: the heap, the global `apop_opts.rng_seed`, and the
error channel. -/
structure World (R : Type) where
  heap : List (Option (Obj R))
  rng_seed : Int
  errors : List (ErrorKind × String)
  deriving DecidableEq, Repr

section heap
variable {R : Type}

/-- Reads the object at an address. -/
def World.load (w : World R) (p : Ptr) : Except Fault (Obj R) :=
  match w.heap[p]? with
  | some (some o) => .ok o
  | _ => .error .invalid_pointer

/-- The call `malloc` followed by the initialisation of the new cell. -/
def World.alloc (w : World R) (o : Obj R) : Ptr × World R :=
  (w.heap.length, { w with heap := w.heap ++ [some o] })

/-- Overwrites the object at an address. -/
def World.store (w : World R) (p : Ptr) (o : Obj R) : World R :=
  { w with heap := w.heap.set p (some o) }

/-- The call `free(p)` for a non-null `p`. -/
def World.release (w : World R) (p : Ptr) : Except Fault (World R) :=
  match w.heap[p]? with
  | some (some _) => .ok { w with heap := w.heap.set p none }
  | _ => .error .invalid_pointer

/-- The address behind a pointer that is about to be read through. -/
def deref (p : Option Ptr) : Except Fault Ptr :=
  match p with
  | some a => .ok a
  | none => .error .null_deref

/-- Reads a model descriptor. -/
def World.model (w : World R) (p : Ptr) : Except Fault apop_model :=
  match w.load p with
  | .ok (.model m) => .ok m
  | .ok _ => .error .invalid_pointer
  | .error e => .error e

/-- Reads a data set. -/
def World.data (w : World R) (p : Ptr) : Except Fault (apop_data R) :=
  match w.load p with
  | .ok (.data d) => .ok d
  | .ok _ => .error .invalid_pointer
  | .error e => .error e

/-- Reads a settings array. -/
def World.settings (w : World R) (p : Ptr) : Except Fault (List apop_settings_type) :=
  match w.load p with
  | .ok (.store s) => .ok s
  | .ok _ => .error .invalid_pointer
  | .error e => .error e

/-- Reads a parameter-model settings group. -/
def World.pm (w : World R) (p : Ptr) : Except Fault apop_pm_settings :=
  match w.load p with
  | .ok (.pm s) => .ok s
  | .ok _ => .error .invalid_pointer
  | .error e => .error e

/-- Reads a CDF settings group. -/
def World.cdf (w : World R) (p : Ptr) : Except Fault apop_cdf_settings :=
  match w.load p with
  | .ok (.cdf s) => .ok s
  | .ok _ => .error .invalid_pointer
  | .error e => .error e

/-- Reads a block of raw bytes. -/
def World.bytes (w : World R) (p : Ptr) : Except Fault (List Nat) :=
  match w.load p with
  | .ok (.bytes b) => .ok b
  | .ok _ => .error .invalid_pointer
  | .error e => .error e

/-- A field assignment `m->f = v` on the model at an address. -/
def World.update_model (w : World R) (p : Ptr) (f : apop_model → apop_model) :
    Except Fault (World R) :=
  match w.model p with
  | .ok m => .ok (w.store p (.model (f m)))
  | .error e => .error e

end heap

section data
variable {R : Type}

/-- The sizes computed by the macro `Get_vmsizes` of `internal.h`. -/
structure vmsizes where
  firstcol : Int
  vsize : Int
  wsize : Int
  msize1 : Int
  msize2 : Int
  tsize : Int
  deriving DecidableEq, Repr

/-- The conversion of a `size_t` to `int`: the value modulo 2^32, read as a number in
two's complement. -/
def to_int (n : Nat) : Int :=
  if n % 4294967296 < 2147483648 then ((n % 4294967296 : Nat) : Int)
  else ((n % 4294967296 : Nat) : Int) - 4294967296

/-- The macro `Get_vmsizes(d)`; each size is converted to `int`. -/
def Get_vmsizes (d : apop_data R) : vmsizes :=
  let firstcol : Int := if d.vector.isSome then -1 else 0
  let vsize : Int := match d.vector with
    | some v => to_int v.length
    | none => 0
  let wsize : Int := match d.weights with
    | some x => to_int x.length
    | none => 0
  let msize1 : Int := match d.matrix with
    | some x => to_int x.size1
    | none => 0
  let msize2 : Int := match d.matrix with
    | some x => to_int x.size2
    | none => 0
  { firstcol := firstcol, vsize := vsize, wsize := wsize, msize1 := msize1,
    msize2 := msize2, tsize := vsize + msize1 * msize2 }

/-- Modelled from the spec: `apop_data_alloc` belongs to the data-set container,
which is not part of `apop_model.c`.  It gives a container "sized per the resolved
policy": a vector of `vsize` elements when `vsize` is positive, a matrix of `msize1`
by `msize2` when both are positive, no weights; the contents are unspecified and
stand here as `default`. -/
def apop_data_alloc [Inhabited R] (vsize msize1 msize2 : Int) : apop_data R :=
  { vector := if 0 < vsize then some (List.replicate vsize.toNat default) else none
    weights := none
    matrix := if 0 < msize1 ∧ 0 < msize2 then
        some { size1 := msize1.toNat, size2 := msize2.toNat,
               data := List.replicate (msize1.toNat * msize2.toNat) default }
      else none
    title := "" }

/-- Modelled from the spec: `apop_data_free` belongs to the data-set container.  It
does nothing on `NULL` and releases a live data set. -/
def apop_data_free (d : Option Ptr) (w : World R) : Except Fault (World R) :=
  match d with
  | none => .ok w
  | some p =>
    match w.data p with
    | .ok _ => w.release p
    | .error e => .error e

/-- Modelled from the spec: `apop_data_copy` belongs to the data-set container.  It
returns `NULL` on `NULL` and otherwise a freshly allocated container holding a copy
of every element ("deep-copies `parameters` and `info`"). -/
def apop_data_copy (d : Option Ptr) (w : World R) : Except Fault (Option Ptr × World R) :=
  match d with
  | none => .ok (none, w)
  | some p =>
    match w.data p with
    | .ok x => let r := w.alloc (.data x); .ok (some r.1, r.2)
    | .error e => .error e

end data

section clear
variable {R : Type}

/-- The read `data->matrix->size2`. -/
def matrix_size2 (w : World R) (data : Option Ptr) : Except Fault Nat :=
  match data with
  | none => .error .null_deref
  | some dp =>
    match w.data dp with
    | .error e => .error e
    | .ok d =>
      match d.matrix with
      | none => .error .null_deref
      | some x => .ok x.size2

/-- The expression `base == -1 ? data->matrix->size2 : base`, assigned to an `int`:
the column count, a `size_t`, is converted to `int`. -/
def resolve_size (w : World R) (data : Option Ptr) (base : Int) : Except Fault Int :=
  if base = -1 then
    match matrix_size2 w data with
    | .ok n => .ok (to_int n)
    | .error e => .error e
  else .ok base

/-- The first four statements of `apop_model_clear`, which resolve the sizes; `m` is
the descriptor at `q`.  Returns the heap in which the statements end or stop, and the
sizes `(vsize, msize1, msize2)` or the fault that stopped them. -/
def clear_sizes (data : Option Ptr) (q : Ptr) (m : apop_model) (w : World R) :
    World R × Except Fault (Int × Int × Int) :=
  match resolve_size w data m.dsize with
  | .error e => (w, .error e)
  | .ok dsize =>
    let w1 := w.store q (.model { m with dsize := dsize })
    (w1, do
      let vsize ← resolve_size w1 data m.vbase
      let msize1 ← resolve_size w1 data m.m1base
      let msize2 ← resolve_size w1 data m.m2base
      return (vsize, msize1, msize2))

/-- The statements of `apop_model_clear` that follow the first four, with the sizes
`s` that these have resolved: `parameters` and `info` are released and replaced, and
the back-reference is set.  Returns the model pointer. -/
def clear_replace [Inhabited R] (data : Option Ptr) (q : Ptr) (m : apop_model)
    (s : Int × Int × Int) (w : World R) : Except Fault (Option Ptr × World R) := do
  let w2 ← apop_data_free m.parameters w
  let w3 ← apop_data_free m.info w2
  let a := w3.alloc (.data (apop_data_alloc s.1 s.2.1 s.2.2))
  let w4 ← a.2.update_model q (fun x => { x with parameters := some a.1 })
  let b := w4.alloc (.data { (apop_data_alloc 0 0 0 : apop_data R) with title := "Info" })
  let w5 ← b.2.update_model q (fun x => { x with info := some b.1 })
  let w6 ← w5.update_model q (fun x => { x with data := data })
  return (some q, w6)

/-- The function `apop_model_clear(data, model)`; returns the model pointer. -/
def apop_model_clear [Inhabited R] (data : Option Ptr) (model : Option Ptr) (w : World R) :
    Except Fault (Option Ptr × World R) := do
  let q ← deref model
  let m ← w.model q
  let r := clear_sizes data q m w
  let s ← r.2
  clear_replace data q m s r.1

end clear

/-- The behaviour of the code that is reached through pointers or lives outside
`apop_model.c`: the operation slots of the models, the hooks of settings groups of
other modules, the settings store and the maximum-likelihood optimizer.  The `p` and
`log_likelihood` operations are pure functions of what they are given. -/
structure Env (R : Type) where
  estimate : FnPtr → Option Ptr → Option Ptr → World R → Except Fault (Option Ptr × World R)
  p : FnPtr → Option Ptr → Option Ptr → World R → R
  log_likelihood : FnPtr → Option Ptr → Option Ptr → World R → R
  prep : FnPtr → Option Ptr → Option Ptr → World R → Except Fault (World R)
  hook : FnPtr → Option Ptr → World R → Except Fault (Option Ptr × World R)
  apop_settings_copy_group : Option Ptr → apop_model → String → World R →
    Except Fault (World R)
  apop_maximum_likelihood : Option Ptr → Option Ptr → World R →
    Except Fault (Option Ptr × World R)

section hooks
variable {R : Type}

/-- The call `apop_rng_alloc(apop_opts.rng_seed++)`: a new stream seeded with the
current global seed, which is then incremented. -/
def apop_rng_alloc_next (w : World R) : Ptr × World R :=
  let a := w.alloc (.rng w.rng_seed)
  (a.1, { a.2 with rng_seed := w.rng_seed + 1 })

/-- The call `gsl_rng_free(r)`, which does nothing on `NULL`. -/
def gsl_rng_free (r : Option Ptr) (w : World R) : Except Fault (World R) :=
  match r with
  | none => .ok w
  | some p =>
    match w.load p with
    | .ok (.rng _) => w.release p
    | .ok _ => .error .invalid_pointer
    | .error e => .error e

/-- The hook `apop_pm_settings_copy(copyme)`. -/
def apop_pm_settings_copy (copyme : Option Ptr) (w : World R) :
    Except Fault (Option Ptr × World R) := do
  let c ← deref copyme
  let s ← w.pm c
  let a := w.alloc (.pm s)
  let r := apop_rng_alloc_next a.2
  let w1 := r.2.store a.1 (.pm { s with rng := some r.1, own_rng := 1 })
  return (some a.1, w1)

/-- The hook `apop_pm_settings_free(freeme)`. -/
def apop_pm_settings_free (freeme : Option Ptr) (w : World R) : Except Fault (World R) := do
  let c ← deref freeme
  let s ← w.pm c
  let w1 ← if s.own_rng ≠ 0 then gsl_rng_free s.rng w else pure w
  w1.release c

/-- The hook `apop_cdf_settings_copy(in)`. -/
def apop_cdf_settings_copy (in_ : Option Ptr) (w : World R) :
    Except Fault (Option Ptr × World R) := do
  let c ← deref in_
  let s ← w.cdf c
  let a := w.alloc (.cdf s)
  return (some a.1, a.2)

/-- The hook `apop_cdf_settings_free(in)`; `model_free` is `apop_model_free`. -/
def apop_cdf_settings_free (model_free : Option Ptr → World R → Except Fault (World R))
    (in_ : Option Ptr) (w : World R) : Except Fault (World R) := do
  let c ← deref in_
  let s ← w.cdf c
  let w1 ← gsl_rng_free s.rng w
  let w2 ← model_free s.cdf_model w1
  w2.release c

/-- The loop `while (free_me->settings[i].name[0]) { ...; i++; }` of
`apop_model_free`, from the counter `i` on, for the descriptor at `q`.  Each round
reads `free_me->settings[i]` again, in the heap as the hooks called so far have left
it: it stops at an entry whose name is empty, and otherwise calls the entry's `free`
hook, when it has one, with the entry's group.  `call` is what calling a function
pointer does.  The first argument is the number of values that the `int` counter can
still take. -/
def free_settings_loop (call : HookFn → Option Ptr → World R → Except Fault (World R))
    (q : Ptr) : Nat → Nat → World R → Except Fault (World R)
  | 0, _, _ => .error .out_of_fuel
  | n + 1, i, w =>
    match w.model q with
    | .error x => .error x
    | .ok m =>
      match m.settings with
      | none => .error .null_deref
      | some sp =>
        match w.settings sp with
        | .error x => .error x
        | .ok s =>
          match s[i]? with
          | none => .error .out_of_bounds
          | some e =>
            if e.name.length = 0 then .ok w
            else
              match e.free with
              | some f =>
                match call f e.setting_group w with
                | .ok w1 => free_settings_loop call q n (i + 1) w1
                | .error x => .error x
              | none => free_settings_loop call q n (i + 1) w

/-- The function `apop_model_free(free_me)`.  Every `free_me->settings` is a read of
the descriptor in the heap of that moment; the counter `i` of the loop is an `int`,
which can take 2^31 values from 0 on. -/
def apop_model_free (call : HookFn → Option Ptr → World R → Except Fault (World R))
    (free_me : Option Ptr) (w : World R) : Except Fault (World R) :=
  match free_me with
  | none => .ok w
  | some q => do
    let m ← w.model q
    let w1 ← apop_data_free m.parameters w
    let m1 ← w1.model q
    let w2 ← match m1.settings with
      | none => pure w1
      | some _ => do
        let w3 ← free_settings_loop call q 2147483648 0 w1
        let m3 ← w3.model q
        match m3.settings with
        | none => pure w3
        | some sp => w3.release sp
    w2.release q

/-- Calling a hook through its function pointer.  The first argument bounds the
nesting of `apop_cdf_settings_free` inside `apop_model_free`. -/
def call_hook (E : Env R) : Nat → HookFn → Option Ptr → World R →
    Except Fault (Option Ptr × World R)
  | _, .apop_pm_settings_copy, b, w => apop_pm_settings_copy b w
  | _, .apop_pm_settings_free, b, w =>
    match apop_pm_settings_free b w with
    | .ok w1 => .ok (none, w1)
    | .error x => .error x
  | _, .apop_cdf_settings_copy, b, w => apop_cdf_settings_copy b w
  | 0, .apop_cdf_settings_free, _, _ => .error .out_of_fuel
  | n + 1, .apop_cdf_settings_free, b, w =>
    match apop_cdf_settings_free
        (apop_model_free (fun f c v => Prod.snd <$> call_hook E n f c v)) b w with
    | .ok w1 => .ok (none, w1)
    | .error x => .error x
  | _, .other f, b, w => E.hook f b w

/-- Calling a `free` hook: the hook is run and what it returns is dropped. -/
def call_free (E : Env R) (fuel : Nat) (f : HookFn) (b : Option Ptr) (w : World R) :
    Except Fault (World R) :=
  Prod.snd <$> call_hook E fuel f b w

end hooks

section lifecycle
variable {R : Type}

/-- The loop of `apop_model_copy` over the settings array of the input: it copies
the group named by each entry, up to and including the first entry with an empty
name. -/
def copy_settings_loop (E : Env R) (out : Option Ptr) (in_ : apop_model) :
    List apop_settings_type → World R → Except Fault (World R)
  | [], _ => .error .out_of_bounds
  | e :: rest, w =>
    match E.apop_settings_copy_group out in_ e.name w with
    | .ok w1 => if e.name.length ≠ 0 then copy_settings_loop E out in_ rest w1 else .ok w1
    | .error x => .error x

/-- The block `if (in.more_size) { out->more = malloc(in.more_size);
memcpy(out->more, in.more, in.more_size); }` of `apop_model_copy`. -/
def copy_more (in_ : apop_model) (out : Ptr) (w : World R) : Except Fault (World R) :=
  if in_.more_size ≠ 0 then
    match in_.more with
    | none => .error .null_deref
    | some src =>
      match w.bytes src with
      | .error e => .error e
      | .ok b =>
        if b.length < in_.more_size then .error .out_of_bounds
        else
          let c := w.alloc (.bytes (b.take in_.more_size))
          c.2.update_model out (fun x => { x with more := some c.1 })
  else .ok w

/-- The block `if (in.settings) do ... while (...)` of `apop_model_copy`.  The
settings array of the input is read when the block is entered. -/
def copy_settings (E : Env R) (in_ : apop_model) (out : Ptr) (w : World R) :
    Except Fault (World R) :=
  match in_.settings with
  | none => .ok w
  | some sp =>
    match w.settings sp with
    | .error e => .error e
    | .ok s => copy_settings_loop E (some out) in_ s w

/-- The function `apop_model_copy(in)`. -/
def apop_model_copy (E : Env R) (in_ : apop_model) (w : World R) :
    Except Fault (Option Ptr × World R) := do
  let a := w.alloc (.model in_)
  let w1 ← copy_more in_ a.1 a.2
  let w2 ← w1.update_model a.1 (fun x => { x with settings := none })
  let w3 ← copy_settings E in_ a.1 w2
  let pc ← apop_data_copy in_.parameters w3
  let w4 ← pc.2.update_model a.1 (fun x => { x with parameters := pc.1 })
  let ic ← apop_data_copy in_.info w4
  let w5 ← ic.2.update_model a.1 (fun x => { x with info := ic.1 })
  return (some a.1, w5)

/-- The function `apop_prep(d, m)`. -/
def apop_prep [Inhabited R] (E : Env R) (d : Option Ptr) (m : Option Ptr) (w : World R) :
    Except Fault (World R) := do
  let q ← deref m
  let x ← w.model q
  match x.prep with
  | some f => E.prep f d m w
  | none =>
    let r ← apop_model_clear d m w
    return r.2

/-- The first two statements of `apop_estimate`: `out = apop_model_copy(m)` and
`apop_prep(d, out)`. -/
def prepared_copy [Inhabited R] (E : Env R) (d : Option Ptr) (m : apop_model) (w : World R) :
    Except Fault (Option Ptr × World R) := do
  let c ← apop_model_copy E m w
  let w1 ← apop_prep E d c.1 c.2
  return (c.1, w1)

/-- The function `apop_estimate(d, m)`. -/
def apop_estimate [Inhabited R] (E : Env R) (d : Option Ptr) (m : apop_model) (w : World R) :
    Except Fault (Option Ptr × World R) := do
  let c ← prepared_copy E d m w
  let q ← deref c.1
  let x ← c.2.model q
  match x.estimate with
  | some f => E.estimate f d c.1 c.2
  | none => E.apop_maximum_likelihood d c.1 c.2

end lifecycle

section likelihood
variable {R : Type}

/-- Modelled from the spec: the macro `Apop_assert_s` behind `Nullcheck_m` is not in
`internal.h`.  A `NULL` model "fails fast with a descriptive `InvalidArgument`". -/
def Nullcheck_m (m : Option Ptr) : Except Fault Ptr :=
  match m with
  | some q => .ok q
  | none => .error (.invalid_argument "m is a NULL model.")

/-- Modelled from the spec: `apop_error` is not in `apop_model.c`.  It "reports the
error via the shared error/message channel" and returns to its caller "rather than
terminating the process"; the kind is the one the spec gives to the failure. -/
def apop_error (k : ErrorKind) (msg : String) (w : World R) : World R :=
  { w with errors := w.errors ++ [(k, msg)] }

/-- The message of `apop_p` and `apop_log_likelihood` for a model without both
operations. -/
def neither_msg : String :=
  "You asked for the log likelihood of a model that has neither p nor log_likelihood methods.\n"

/-- The function `apop_p(d, m)`; `exp` is the C library's. -/
def apop_p [Zero R] (exp : R → R) (E : Env R) (d : Option Ptr) (m : Option Ptr)
    (w : World R) : Except Fault (R × World R) := do
  let q ← Nullcheck_m m
  let x ← w.model q
  match x.p with
  | some f => return (E.p f d m w, w)
  | none =>
    match x.log_likelihood with
    | some g => return (exp (E.log_likelihood g d m w), w)
    | none => return (0, apop_error .UnsupportedOperation neither_msg w)

/-- The function `apop_log_likelihood(d, m)`; `log` is the C library's. -/
def apop_log_likelihood [Zero R] (log : R → R) (E : Env R) (d : Option Ptr) (m : Option Ptr)
    (w : World R) : Except Fault (R × World R) := do
  let q ← Nullcheck_m m
  let x ← w.model q
  match x.log_likelihood with
  | some g => return (E.log_likelihood g d m w, w)
  | none =>
    match x.p with
    | some f => return (log (E.p f d m w), w)
    | none => return (0, apop_error .UnsupportedOperation neither_msg w)

end likelihood

section wellformed
variable {R : Type}

/-- A pointer that is `NULL` or the address of a live data set. -/
def null_or_data (w : World R) (p : Option Ptr) : Bool :=
  match p with
  | none => true
  | some a =>
    match w.load a with
    | .ok (.data _) => true
    | _ => false

/-- The owned containers of a descriptor can be released: `parameters` and `info`
are each `NULL` or a live data set, and they are not the same data set. -/
def owned_ok (w : World R) (m : apop_model) : Bool :=
  null_or_data w m.parameters && null_or_data w m.info &&
    (m.parameters.isNone || decide (m.parameters ≠ m.info))

end wellformed

section examples

/-- A descriptor with no operation, no settings and no containers, whose parameter
vector has as many elements as the data has columns. -/
def example_model : apop_model :=
  { name := "example", vbase := -1, m1base := 0, m2base := 0, dsize := 1, settings := none,
    parameters := none, data := none, info := none, estimate := none, p := none,
    log_likelihood := none, score := none, predict := none, parameter_model := none,
    cdf := none, draw := none, prep := none, print := none, more := none, more_size := 0 }

/-- A data set with a matrix of two rows and five columns. -/
def example_data : apop_data Int :=
  { vector := none, weights := none,
    matrix := some { size1 := 2, size2 := 5, data := List.replicate 10 0 }, title := "d" }

/-- A heap holding `example_model` at address 0 and `example_data` at address 1. -/
def example_world : World Int :=
  { heap := [some (.model example_model), some (.data example_data)], rng_seed := 0,
    errors := [] }

/-- A data set whose matrix has one row of `cols` columns. -/
def wide_data (cols : Nat) : apop_data Int :=
  { vector := none, weights := none,
    matrix := some { size1 := 1, size2 := cols, data := List.replicate cols 0 }, title := "wide" }

/-- A heap holding the descriptor `m` at address 0 and `wide_data cols` at address 1. -/
def wide_world (m : apop_model) (cols : Nat) : World Int :=
  { heap := [some (.model m), some (.data (wide_data cols))], rng_seed := 0, errors := [] }

/-- An environment whose `p` and `log_likelihood` return fixed values, whose
`estimate` and optimizer return the model they are given, and whose other
operations do nothing. -/
def const_env {R : Type} (pv lv : R) : Env R :=
  { estimate := fun _ _ m w => .ok (m, w)
    p := fun _ _ _ _ => pv
    log_likelihood := fun _ _ _ _ => lv
    prep := fun _ _ _ w => .ok w
    hook := fun _ b w => .ok (b, w)
    apop_settings_copy_group := fun _ _ _ w => .ok w
    apop_maximum_likelihood := fun _ m w => .ok (m, w) }

/-- A descriptor with parameters at address 1 and info at address 2. -/
def estimated_model : apop_model :=
  { example_model with vbase := 2, parameters := some 1, info := some 2 }

/-- A heap holding `estimated_model` and its two containers. -/
def estimated_world : World Int :=
  { heap := [some (.model estimated_model),
             some (.data { vector := some [3, 4], weights := none, matrix := none, title := "" }),
             some (.data { vector := none, weights := none, matrix := none, title := "Info" })],
    rng_seed := 0, errors := [] }

/-- A descriptor whose only operation is `p`, at function address 7. -/
def p_only_model : apop_model := { example_model with p := some 7 }

/-- A heap over the reals holding `p_only_model` at address 0. -/
def p_only_world : World ℝ :=
  { heap := [some (.model p_only_model)], rng_seed := 0, errors := [] }

/-- A settings entry for a CDF settings group at address 1. -/
def cdf_entry : apop_settings_type :=
  { name := "apop_cdf", setting_group := some 1, copy := some .apop_cdf_settings_copy,
    free := some .apop_cdf_settings_free }

/-- The entry that ends a settings array. -/
def end_entry : apop_settings_type :=
  { name := "", setting_group := none, copy := none, free := none }

/-- A heap holding a stream at address 0, a CDF settings group using it at address 1,
a settings array with that group at address 2 and its model at address 3. -/
def cdf_world : World Int :=
  { heap := [some (.rng 7), some (.cdf { cdf_model := none, draws := 10000, rng := some 0 }),
             some (.store [cdf_entry, end_entry]),
             some (.model { example_model with settings := some 2 })],
    rng_seed := 8, errors := [] }

end examples

section statements
variable {R : Type}

/-- The calls of `free` hooks that a settings array asks for: one per entry that has
a hook, in the order of the array, each with the group of its entry. -/
def hook_calls (entries : List apop_settings_type) : List (HookFn × Option Ptr) :=
  entries.filterMap (fun e => e.free.map (fun f => (f, e.setting_group)))

/-- Runs a list of hook calls one after the other. -/
def run_hooks (call : HookFn → Option Ptr → World R → Except Fault (World R)) :
    List (HookFn × Option Ptr) → World R → Except Fault (World R)
  | [], w => .ok w
  | c :: cs, w =>
    match call c.1 c.2 w with
    | .ok w1 => run_hooks call cs w1
    | .error x => .error x

/-- The hooks of a list of calls leave the descriptor at `q` and the settings array
at `sp` alone: when the calls are run one after the other from the heap `w`, each
call that returns leaves both as they were before it. -/
def hooks_keep (call : HookFn → Option Ptr → World R → Except Fault (World R))
    (q sp : Ptr) : List (HookFn × Option Ptr) → World R → Prop
  | [], _ => True
  | c :: cs, w => ∀ w1, call c.1 c.2 w = .ok w1 →
      w1.model q = w.model q ∧ w1.settings sp = w.settings sp ∧ hooks_keep call q sp cs w1

/-- What `apop_model_copy` relies on from the settings store: a call of
`apop_settings_copy_group` returns, changes no field of the descriptor it fills other
than `settings`, and leaves every data set as it is. -/
def store_calls_ok (E : Env R) : Prop :=
  ∀ (o : Ptr) (i : apop_model) (n : String) (w : World R),
    ∃ w1, E.apop_settings_copy_group (some o) i n w = .ok w1 ∧
      (∀ m, w.model o = .ok m → ∃ s, w1.model o = .ok { m with settings := s }) ∧
      (∀ p x, w.data p = .ok x → w1.data p = .ok x)

/-- The pointer `b` of the later heap `w5` is a deep copy of the pointer `a` of the
heap `w`: `NULL` when `a` is, and otherwise the address of another cell, one that
holds no data set in `w`, with the same elements as `a`, which are still at `a`. -/
def copy_of (w w5 : World R) (a b : Option Ptr) : Prop :=
  match a with
  | none => b = none
  | some p => ∃ p1 x, b = some p1 ∧ p1 ≠ p ∧ (∀ y, w.data p1 ≠ .ok y) ∧
      w.data p = .ok x ∧ w5.data p = .ok x ∧ w5.data p1 = .ok x

/-- The `more` blob of a descriptor can be copied: no size is declared, or `more`
points to at least `more_size` bytes. -/
def more_ok (w : World R) (m : apop_model) : Prop :=
  m.more_size = 0 ∨ ∃ src b, m.more = some src ∧ w.bytes src = .ok b ∧ m.more_size ≤ b.length

/-- The settings array of a descriptor is absent or ends with an entry whose name is
empty. -/
def settings_ok (w : World R) (m : apop_model) : Prop :=
  m.settings = none ∨ ∃ sp pre s post, m.settings = some sp ∧
    w.settings sp = .ok (pre ++ s :: post) ∧ s.name.length = 0 ∧
    ∀ e ∈ pre, e.name.length ≠ 0

/-- The default preparation can size the model: no size field is `-1`, or the data
set has a matrix. -/
def sizes_ok (w : World R) (d : Option Ptr) (m : apop_model) : Prop :=
  (m.dsize ≠ -1 ∧ m.vbase ≠ -1 ∧ m.m1base ≠ -1 ∧ m.m2base ≠ -1) ∨
    ∃ dp dd x, d = some dp ∧ w.data dp = .ok dd ∧ dd.matrix = some x

end statements

/-! ## The other dispatchers, the parameter model and the OLS inventory -/

/-- The behaviour of the further code that the dispatchers reach through pointers or
that lives outside `apop_model.c`: the remaining operation slots, the routines behind
the fallbacks, the settings store, and the models `apop_multivariate_normal`,
`apop_normal` and `apop_pmf`.  The `cdf` and `score` operations are pure functions of
what they are given; a draw is a function of the state of the stream it is given,
returning the components it writes and the next state of the stream. -/
structure Externals (R : Type) extends Env R where
  score : FnPtr → Option Ptr → List R → Option Ptr → World R → List R
  apop_numerical_gradient : Option Ptr → Option Ptr → World R → List R
  draw : FnPtr → Int → Option Ptr → World R → List R × Int
  apop_arms_draw : Int → Option Ptr → World R → List R × Int
  predict : FnPtr → Option Ptr → Option Ptr → World R → Except Fault (Option Ptr × World R)
  apop_ml_imputation : Option Ptr → Option Ptr → World R → Except Fault (Option Ptr × World R)
  cdf : FnPtr → Option Ptr → Option Ptr → World R → R
  parameter_model : FnPtr → Option Ptr → Option Ptr → World R →
    Except Fault (Option Ptr × World R)
  apop_settings_get_group : Option Ptr → String → World R → Option Ptr
  apop_settings_group_alloc : Option Ptr → String → Option HookFn → Option HookFn →
    Option Ptr → World R → Except Fault (World R)
  apop_bootstrap_cov : Option Ptr → apop_model → Option Ptr → Int → World R →
    Except Fault (Option Ptr × World R)
  apop_multivariate_normal : apop_model
  apop_normal : apop_model
  apop_pmf : apop_model

section gsl
variable {R : Type}

/-- Reads the state of a random stream. -/
def World.rng (w : World R) (p : Ptr) : Except Fault Int :=
  match w.load p with
  | .ok (.rng s) => .ok s
  | .ok _ => .error .invalid_pointer
  | .error e => .error e

/-- The call `gsl_vector_memcpy(dest, src)`, which rejects vectors of different
lengths; returns the new contents of `dest`. -/
def gsl_vector_memcpy (dest src : List R) : Except Fault (List R) :=
  if dest.length = src.length then .ok src
  else .error (.invalid_argument "vector lengths are not equal")

/-- The view `gsl_matrix_row(m, i)`: the elements of row `i`. -/
def gsl_matrix_row (x : gsl_matrix R) (i : Nat) : Except Fault (List R) :=
  if i < x.size1 then .ok ((x.data.drop (i * x.size2)).take x.size2)
  else .error .out_of_bounds

/-- The view `gsl_matrix_column(m, j)`: the elements of column `j`. -/
def gsl_matrix_column [Inhabited R] (x : gsl_matrix R) (j : Nat) : Except Fault (List R) :=
  if j < x.size2 then .ok ((List.range x.size1).map (fun i => x.data.getD (i * x.size2 + j) default))
  else .error .out_of_bounds

/-- A matrix after the elements of row `i` were overwritten through a row view. -/
def gsl_matrix_set_row (x : gsl_matrix R) (i : Nat) (row : List R) : gsl_matrix R :=
  { x with data := x.data.take (i * x.size2) ++ row ++ x.data.drop (i * x.size2 + row.length) }

/-- The memory behind a `double *` after `vals` was written at its start: a write
beyond the allocated length is a fault. -/
def write_buf (old vals : List R) : Except Fault (List R) :=
  if vals.length ≤ old.length then .ok (vals ++ old.drop vals.length)
  else .error .out_of_bounds

end gsl

section dispatch
variable {R : Type}

/-- The function `apop_score(d, out, m)`; returns the new contents of `out`. -/
def apop_score (D : Externals R) (d : Option Ptr) (out : List R) (m : Option Ptr)
    (w : World R) : Except Fault (List R × World R) := do
  let q ← Nullcheck_m m
  let x ← w.model q
  match x.score with
  | some f => return (D.score f d out m w, w)
  | none =>
    let numeric_default := D.apop_numerical_gradient d m w
    let out1 ← gsl_vector_memcpy out numeric_default
    return (out1, w)

/-- A call `f(out, r, m)` of a draw function: the stream `r` is read and advanced, and
the components drawn are written to `out`.  Returns the new contents of `out`. -/
def run_draw (f : Int → Option Ptr → World R → List R × Int) (out : List R)
    (r : Option Ptr) (m : Option Ptr) (w : World R) : Except Fault (List R × World R) := do
  let rp ← deref r
  let s ← w.rng rp
  let res := f s m w
  let out1 ← write_buf out res.1
  return (out1, w.store rp (.rng res.2))

/-- The function `apop_draw(out, r, m)`; returns the new contents of `out`. -/
def apop_draw (D : Externals R) (out : List R) (r : Option Ptr) (m : Option Ptr)
    (w : World R) : Except Fault (List R × World R) := do
  let q ← deref m
  let x ← w.model q
  match x.draw with
  | some f => run_draw (D.draw f) out r m w
  | none => run_draw D.apop_arms_draw out r m w

/-- Modelled from the spec: `apop_map_sum(out, disnan)` belongs to the data-set
container.  It counts the "missing entries" of the data set: the elements of its
vector and of its matrix that are NaN. -/
def apop_map_sum_disnan (isnan : R → Bool) (d : apop_data R) : Nat :=
  ((d.vector.getD []).filter isnan).length +
    (((d.matrix.map (fun x => x.data)).getD []).filter isnan).length

/-- The call `gsl_matrix_set_all(out->matrix, GSL_NAN)` on the data set at `p`. -/
def set_all_nan (nan : R) (p : Ptr) (w : World R) : Except Fault (World R) :=
  match w.data p with
  | .error e => .error e
  | .ok d =>
    match d.matrix with
    | none => .error .null_deref
    | some x =>
      .ok (w.store p (.data { d with matrix := some { x with data := x.data.map (fun _ => nan) } }))

/-- The function `apop_predict(d, m)`; `isnan` is `gsl_isnan` and `nan` is `GSL_NAN`. -/
def apop_predict [Inhabited R] (isnan : R → Bool) (nan : R)
    (call : HookFn → Option Ptr → World R → Except Fault (World R)) (D : Externals R)
    (d : Option Ptr) (m : Option Ptr) (w : World R) : Except Fault (Option Ptr × World R) := do
  let a ← match d with
    | some dp => pure (dp, w)
    | none => do
      let q ← deref m
      let x ← w.model q
      pure (w.alloc (.data (apop_data_alloc 0 1 x.dsize)))
  let w1 ← if d.isNone then set_all_nan nan a.1 a.2 else pure a.2
  let q ← deref m
  let x ← w1.model q
  let pr ← match x.predict with
    | some f => D.predict f (some a.1) m w1
    | none => pure (none, w1)
  match pr.1 with
  | some p => return (some p, pr.2)
  | none =>
    let od ← pr.2.data a.1
    if apop_map_sum_disnan isnan od = 0 then return (some a.1, pr.2)
    else
      let f ← D.apop_ml_imputation (some a.1) m pr.2
      let w3 ← apop_model_free call f.1 f.2
      return (some a.1, w3)

/-- The function `lte(v, ref)`: 1 when no element of `v` is greater than the element
of `ref` at the same place, else 0; `gt` is `>` on doubles.  A read of `ref` beyond
its last element is rejected by `gsl_vector_get`. -/
def lte (gt : R → R → Bool) : List R → List R → Except Fault Int
  | [], _ => .ok 1
  | _ :: _, [] => .error .out_of_bounds
  | a :: v, b :: ref => if gt a b then .ok 0 else lte gt v ref

/-- Modelled from the spec: the macro `apop_varad_setting(in, out, name, value)` of
`settings.h` is not in `apop_model.c`.  A field "defaults to" `value` "if
unspecified": it is the field of `in` when that is not zero, and `value` otherwise. -/
def apop_varad_setting (given value : Int) : Int :=
  if given ≠ 0 then given else value

/-- The call `apop_rng_alloc(++apop_opts.rng_seed)`: the global seed is incremented
and a new stream is seeded with it. -/
def apop_rng_alloc_incremented (w : World R) : Ptr × World R :=
  let a := w.alloc (.rng (w.rng_seed + 1))
  (a.1, { a.2 with rng_seed := w.rng_seed + 1 })

/-- The function `apop_cdf_settings_init(in)`; returns the new settings group. -/
def apop_cdf_settings_init (in_ : apop_cdf_settings) (w : World R) : Ptr × World R :=
  let a := w.alloc (.cdf in_)
  let draws := apop_varad_setting in_.draws 10000
  let r : Option Ptr × World R :=
    match in_.rng with
    | some r => (some r, a.2)
    | none => let n := apop_rng_alloc_incremented a.2; (some n.1, n.2)
  (a.1, r.2.store a.1 (.cdf { cdf_model := in_.cdf_model, draws := draws, rng := r.1 }))

/-- The function `apop_pm_settings_init(in)`; returns the new settings group. -/
def apop_pm_settings_init (in_ : apop_pm_settings) (w : World R) : Ptr × World R :=
  let a := w.alloc (.pm in_)
  let index := apop_varad_setting in_.index 0
  let r : Option Ptr × World R :=
    match in_.rng with
    | some r => (some r, a.2)
    | none => let n := apop_rng_alloc_next a.2; (some n.1, n.2)
  let own_rng : Int := if in_.rng.isSome then 0 else 1
  let draws := apop_varad_setting in_.draws 10000
  (a.1, r.2.store a.1
    (.pm { base := in_.base, index := index, rng := r.1, draws := draws, own_rng := own_rng }))

/-- The statements `cs = Apop_settings_get_group(m, apop_cdf); if (!cs) cs =
Apop_model_add_group(m, apop_cdf);` of `apop_cdf`: the group of the model, or a new
group with every field unspecified, attached to the model with its hooks. -/
def cdf_settings_of (D : Externals R) (m : Option Ptr) (w : World R) :
    Except Fault (Option Ptr × World R) :=
  match D.apop_settings_get_group m "apop_cdf" w with
  | some cs => .ok (some cs, w)
  | none =>
    let a := apop_cdf_settings_init { cdf_model := none, draws := 0, rng := none } w
    match D.apop_settings_group_alloc m "apop_cdf" (some .apop_cdf_settings_free)
        (some .apop_cdf_settings_copy) (some a.1) a.2 with
    | .ok w1 => .ok (some a.1, w1)
    | .error e => .error e

/-- The loop of `apop_cdf`: `n` times, draw into `v` and add `lte(v, ref)` to the
tally.  Returns the tally and the heap. -/
def cdf_loop (gt : R → R → Bool) (D : Externals R) (r : Option Ptr) (m : Option Ptr)
    (ref : List R) : Nat → List R → Int → World R → Except Fault (Int × World R)
  | 0, _, tally, w => .ok (tally, w)
  | n + 1, v, tally, w =>
    match apop_draw D v r m w with
    | .error e => .error e
    | .ok res =>
      match lte gt res.1 ref with
      | .error e => .error e
      | .ok b => cdf_loop gt D r m ref n res.1 (tally + b) res.2

/-- The function `apop_cdf(d, m)`; `gt` is `>` on doubles and `ratio t n` is
`t/(double)n`.  The draw count and the stream of the settings group are read when the
loop is entered; a draw changes nothing but the stream. -/
def apop_cdf [Inhabited R] (gt : R → R → Bool) (ratio : Int → Int → R) (D : Externals R)
    (d : Option Ptr) (m : Option Ptr) (w : World R) : Except Fault (R × World R) := do
  let q ← deref m
  let x ← w.model q
  match x.cdf with
  | some f => return (D.cdf f d m w, w)
  | none =>
    let c ← cdf_settings_of D m w
    let dp ← deref d
    let dd ← c.2.data dp
    match dd.matrix with
    | none => throw Fault.null_deref
    | some mat =>
      let v : List R := List.replicate mat.size2 default
      let ref ← gsl_matrix_row mat 0
      let cp ← deref c.1
      let cs ← c.2.cdf cp
      let t ← cdf_loop gt D cs.rng m ref cs.draws.toNat v 0 c.2
      return (ratio t.1 cs.draws, t.2)

end dispatch

section parameters
variable {R : Type}

/-- Modelled from the spec: `apop_data_pack` belongs to the data-set container.  The
"packed parameter vector" is "the flattening of a model's parameter container into
one linear vector": the elements of the vector, then those of the matrix, row by
row. -/
def packed (d : apop_data R) : List R :=
  d.vector.getD [] ++ (d.matrix.map (fun x => x.data.take (x.size1 * x.size2))).getD []

/-- Modelled from the spec: the call `apop_data_pack(in)` with no output vector
returns a new vector holding the packed elements, and `NULL` when there is none. -/
def apop_data_pack (d : apop_data R) : Option (List R) :=
  if (packed d).length = 0 then none else some (packed d)

/-- Modelled from the spec: the call `apop_data_pack(in, out)` packs the elements
into the vector `out`, so that the packed parameters are "a row of an accumulation
table"; it rejects an `out` whose size is not the number of packed elements.  Returns
the new contents of `out`. -/
def apop_data_pack_into (d : apop_data R) (out : List R) : Except Fault (List R) :=
  if (packed d).length = out.length then .ok (packed d)
  else .error (.invalid_argument "The input data set and the output vector differ in size.")

/-- Modelled from the spec: `apop_data_get(d, row, col)` belongs to the data-set
container: the element of the vector at `row` when `col` is `-1`, and otherwise the
element of the matrix at `(row, col)`. -/
def apop_data_get (d : apop_data R) (row col : Int) : Except Fault R :=
  if row < 0 then .error .out_of_bounds
  else if col = -1 then
    match d.vector with
    | none => .error .null_deref
    | some v =>
      match v[row.toNat]? with
      | some a => .ok a
      | none => .error .out_of_bounds
  else if col < 0 then .error .out_of_bounds
  else
    match d.matrix with
    | none => .error .null_deref
    | some x =>
      if row.toNat < x.size1 ∧ col.toNat < x.size2 then
        match x.data[row.toNat * x.size2 + col.toNat]? with
        | some a => .ok a
        | none => .error .out_of_bounds
      else .error .out_of_bounds

/-- Modelled from the spec: `apop_data_fill_base(in, ap)` belongs to the data-set
container.  It does nothing on `NULL`; otherwise the parameters are "filled from the
supplied values": the vector takes the first values of `ap` and the matrix the
following ones, row by row.  Reading beyond the end of `ap` is a fault. -/
def apop_data_fill_base (d : Option Ptr) (ap : List R) (w : World R) :
    Except Fault (World R) :=
  match d with
  | none => .ok w
  | some p =>
    match w.data p with
    | .error e => .error e
    | .ok x =>
      let vn := (x.vector.getD []).length
      let mn := ((x.matrix.map (fun y => y.data)).getD []).length
      if ap.length < vn + mn then .error .out_of_bounds
      else
        .ok (w.store p (.data { x with
          vector := x.vector.map (fun _ => ap.take vn)
          matrix := x.matrix.map (fun y => { y with data := (ap.drop vn).take mn }) }))

/-- The message of the guard of `apop_model_set_parameters_base`. -/
def set_parameters_msg : String :=
  "This function only works with models whose number of params does not depend on data size. You'll have to use apop_model *new = apop_model_copy(in); apop_model_clear(your_data, in); and then set in->parameters using your data."

/-- The function `apop_model_set_parameters_base(in, ap)`.  Modelled from the spec:
the macro `apop_assert` is not in `apop_model.c`; a failed guard reports an
`InvalidArgument` error and makes the function return `NULL`. -/
def apop_model_set_parameters_base [Inhabited R] (E : Env R) (in_ : apop_model)
    (ap : List R) (w : World R) : Except Fault (Option Ptr × World R) :=
  if in_.vbase ≠ -1 ∧ in_.m1base ≠ -1 ∧ in_.m2base ≠ -1 then do
    let c ← apop_model_copy E in_ w
    let w1 ← apop_prep E none c.1 c.2
    let q ← deref c.1
    let x ← w1.model q
    let w2 ← apop_data_fill_base x.parameters ap w1
    return (c.1, w2)
  else .ok (none, apop_error .InvalidArgument set_parameters_msg w)

/-- The statements `settings = apop_settings_get_group(m, apop_pm); if (!settings)
settings = apop_model_add_group(m, apop_pm, .base= m);` of `apop_parameter_model`:
the group of the model, or a new group with only `base` specified, attached to the
model with its hooks. -/
def pm_settings_of (D : Externals R) (m : Option Ptr) (w : World R) :
    Except Fault (Option Ptr × World R) :=
  match D.apop_settings_get_group m "apop_pm" w with
  | some s => .ok (some s, w)
  | none =>
    let a := apop_pm_settings_init
      { base := m, index := 0, rng := none, draws := 0, own_rng := 0 } w
    match D.apop_settings_group_alloc m "apop_pm" (some .apop_pm_settings_free)
        (some .apop_pm_settings_copy) (some a.1) a.2 with
    | .ok w1 => .ok (some a.1, w1)
    | .error e => .error e

/-- The block `if (d) { ... }` of `apop_parameter_model`: a multivariate normal model
around the packed parameters with the bootstrap covariance, or the normal model of the
parameter at `index`. -/
def parameter_model_with_data [Inhabited R]
    (call : HookFn → Option Ptr → World R → Except Fault (World R)) (D : Externals R)
    (d : Option Ptr) (q : Ptr) (s : apop_pm_settings) (w : World R) :
    Except Fault (Option Ptr × World R) := do
  let x ← w.model q
  let pp ← deref x.parameters
  let pd ← w.data pp
  let sz := Get_vmsizes pd
  let c ← apop_model_copy D.toEnv D.apop_multivariate_normal w
  let out ← deref c.1
  let k := sz.vsize + sz.msize1 + sz.msize2
  let w1 ← c.2.update_model out
    (fun y => { y with m1base := k, vbase := k, m2base := k, dsize := k })
  let x1 ← w1.model q
  let b ← D.apop_bootstrap_cov d x1 s.rng s.draws w1
  let w2 ← b.2.update_model out (fun y => { y with parameters := b.1 })
  let bp ← deref b.1
  let bd ← w2.data bp
  let x2 ← w2.model q
  let pp2 ← deref x2.parameters
  let pd2 ← w2.data pp2
  let w3 := w2.store bp (.data { bd with vector := apop_data_pack pd2 })
  if s.index = -1 then return (some out, w3)
  else
    let od ← w3.data bp
    let mean ← apop_data_get od s.index (-1)
    let var ← apop_data_get od s.index s.index
    let out2 ← apop_model_set_parameters_base D.toEnv D.apop_normal [mean, var] w3
    let w4 ← apop_model_free call (some out) out2.2
    return (out2.1, w4)

/-- The table allocated by `apop_data_alloc(0, settings->draws, vsize+msize1+msize2)`
after `Get_vmsizes(m->parameters)`. -/
def param_draws_alloc [Inhabited R] (params : apop_data R) (draws : Int) : apop_data R :=
  let sz := Get_vmsizes params
  apop_data_alloc 0 draws (sz.vsize + sz.msize1 + sz.msize2)

/-- The loop of `apop_parameter_model` without data: for each of the `n` remaining
rows, from row `i` on, estimate the model without data, pack the parameters of the
result into the row of the table at `t`, and free the result. -/
def param_draws_loop [Inhabited R]
    (call : HookFn → Option Ptr → World R → Except Fault (World R)) (D : Externals R)
    (q : Ptr) (t : Ptr) : Nat → Nat → World R → Except Fault (World R)
  | 0, _, w => .ok w
  | n + 1, i, w => do
    let x ← w.model q
    let mm ← apop_estimate D.toEnv none x w
    let td ← mm.2.data t
    let mat ← match td.matrix with
      | some y => pure y
      | none => throw Fault.null_deref
    let onerow ← gsl_matrix_row mat i
    let mq ← deref mm.1
    let mx ← mm.2.model mq
    let pp ← deref mx.parameters
    let pd ← mm.2.data pp
    let row1 ← apop_data_pack_into pd onerow
    let w1 := mm.2.store t (.data { td with matrix := some (gsl_matrix_set_row mat i row1) })
    let w2 ← apop_model_free call mm.1 w1
    param_draws_loop call D q t n (i + 1) w2

/-- The part of `apop_parameter_model` after `if (d) { ... }`: the model is estimated
without data `draws` times and an `apop_pmf` model is estimated on the table of the
parameters found, or on its column `index`. -/
def parameter_model_without_data [Inhabited R]
    (call : HookFn → Option Ptr → World R → Except Fault (World R)) (D : Externals R)
    (q : Ptr) (s : apop_pm_settings) (w : World R) :
    Except Fault (Option Ptr × World R) := do
  let x ← w.model q
  let pp ← deref x.parameters
  let pd ← w.data pp
  let a := w.alloc (.data (param_draws_alloc pd s.draws))
  let w1 ← param_draws_loop call D q a.1 s.draws.toNat 0 a.2
  if s.index = -1 then apop_estimate D.toEnv (some a.1) D.apop_pmf w1
  else
    let b := w1.alloc (.data (apop_data_alloc s.draws 0 0))
    let td ← b.2.data a.1
    let mat ← match td.matrix with
      | some y => pure y
      | none => throw Fault.null_deref
    let the_draws ← if s.index < 0 then throw Fault.out_of_bounds
      else gsl_matrix_column mat s.index.toNat
    let bd ← b.2.data b.1
    let dest ← match bd.vector with
      | some v => pure v
      | none => throw Fault.null_deref
    let v1 ← gsl_vector_memcpy dest the_draws
    let w2 := b.2.store b.1 (.data { bd with vector := some v1 })
    let w3 ← apop_data_free (some a.1) w2
    apop_estimate D.toEnv (some b.1) D.apop_pmf w3

/-- The statements of `apop_parameter_model` that follow the first two, with the
settings group `settings` that these have found or attached. -/
def parameter_model_dispatch [Inhabited R]
    (call : HookFn → Option Ptr → World R → Except Fault (World R)) (D : Externals R)
    (d : Option Ptr) (m : Option Ptr) (settings : Option Ptr) (w : World R) :
    Except Fault (Option Ptr × World R) := do
  let q ← deref m
  let x ← w.model q
  match x.parameter_model with
  | some f => D.parameter_model f d m w
  | none =>
    let sp ← deref settings
    let s ← w.pm sp
    if d.isSome then parameter_model_with_data call D d q s w
    else parameter_model_without_data call D q s w

/-- The function `apop_parameter_model(d, m)`. -/
def apop_parameter_model [Inhabited R]
    (call : HookFn → Option Ptr → World R → Except Fault (World R)) (D : Externals R)
    (d : Option Ptr) (m : Option Ptr) (w : World R) : Except Fault (Option Ptr × World R) := do
  let st ← pm_settings_of D m w
  parameter_model_dispatch call D d m st.1 st.2

end parameters

section regression

/-- The fields of `apop_inventory` that `regression.c` uses. -/
structure apop_inventory where
  parameters : Int
  covariance : Int
  confidence : Int
  predicted : Int
  residuals : Int
  log_likelihood : Int
  names : Int
  deriving DecidableEq, Repr

/-- The fields of `apop_name` that `regression.c` uses. -/
structure apop_name where
  colnames : List String
  rownames : List String
  depnames : List String
  deriving DecidableEq, Repr

/-- Modelled from the spec: `apop_inventory_set(out, v)` is not in `regression.c`;
the call `apop_inventory_set(out, 1)` is there to "give the user the works": every
field is set to `v`. -/
def apop_inventory_set (v : Int) : apop_inventory :=
  { parameters := v, covariance := v, confidence := v, predicted := v, residuals := v,
    log_likelihood := v, names := v }

/-- Modelled from the spec: `apop_inventory_copy(in, out)` is not in `regression.c`;
every field of `in` is copied to `out`. -/
def apop_inventory_copy (i : apop_inventory) : apop_inventory := i

/-- Modelled from the spec: `apop_name_add(n, name, 'd')` is not in `regression.c`;
it adds a name to the names of the dependent variable. -/
def apop_name_add_d (n : apop_name) (name : String) : apop_name :=
  { n with depnames := n.depnames ++ [name] }

/-- The function `prep_inventory_OLS(n, in, out)`; returns `*n` and `*out` as the
function leaves them.  Reading `n->colnames[0]` when there is no column name is a
fault. -/
def prep_inventory_OLS (n : Option apop_name) (in_ : Option apop_inventory) :
    Except Fault (Option apop_name × apop_inventory) :=
  let out0 : apop_inventory :=
    match in_ with
    | none => apop_inventory_set 1
    | some i => { apop_inventory_copy i with covariance := 1 }
  let out1 := { out0 with log_likelihood := 0, parameters := 1 }
  match n with
  | none => .ok (none, { out1 with names := 0 })
  | some nm =>
    match nm.colnames with
    | [] => .error .out_of_bounds
    | c :: rest =>
      let n1 := apop_name_add_d nm c
      .ok (some { n1 with colnames := "1" :: rest }, { out1 with names := 1 })

end regression

section examples_dispatch

/-- Externals over `const_env` with fixed answers: every draw gives the point `pt`
and advances the stream by one, the settings store holds `group` under every name and
accepts new groups without recording them, and the three models are `tmpl`. -/
def const_externals {R : Type} (pv lv : R) (pt : List R) (group : Option Ptr)
    (tmpl : apop_model) : Externals R :=
  { toEnv := const_env pv lv
    score := fun _ _ out _ _ => out
    apop_numerical_gradient := fun _ _ _ => []
    draw := fun _ s _ _ => (pt, s + 1)
    apop_arms_draw := fun s _ _ => (pt, s + 1)
    predict := fun _ _ _ w => .ok (none, w)
    apop_ml_imputation := fun _ m w => .ok (m, w)
    cdf := fun _ _ _ _ => pv
    parameter_model := fun _ _ m w => .ok (m, w)
    apop_settings_get_group := fun _ _ _ => group
    apop_settings_group_alloc := fun _ _ _ _ _ w => .ok w
    apop_bootstrap_cov := fun _ _ _ _ w => .ok (none, w)
    apop_multivariate_normal := tmpl
    apop_normal := tmpl
    apop_pmf := tmpl }

/-- A descriptor whose parameters are a matrix of two rows and three columns, at
address 1. -/
def matrix_model : apop_model :=
  { example_model with vbase := 0, m1base := 2, m2base := 3, parameters := some 1 }

/-- The parameters of `matrix_model`. -/
def matrix_params : apop_data Int :=
  { vector := none, weights := none,
    matrix := some { size1 := 2, size2 := 3, data := [1, 2, 3, 4, 5, 6] }, title := "" }

/-- A heap holding `matrix_model`, its parameters, a parameter-model settings group
asking for 100 draws and all parameters, and the stream of the group. -/
def pm_world : World Int :=
  { heap := [some (.model matrix_model), some (.data matrix_params),
             some (.pm { base := some 0, index := -1, rng := some 3, draws := 100, own_rng := 1 }),
             some (.rng 7)],
    rng_seed := 8, errors := [] }

/-- A heap holding at address 0 a model whose only operation is `parameter_model`, at
function address 4, and no settings group. -/
def pm_native_world : World Int :=
  { heap := [some (.model { example_model with parameter_model := some 4 })], rng_seed := 8,
    errors := [] }

/-- The values of a `double`: NaN, the two infinities and the finite numbers.  A
finite double is given by the rational number that it is; the two zeros are not told
apart.  The arithmetic below returns numbers of binary64 only. -/
inductive double where
  | nan
  | ninf
  | fin (q : ℚ)
  | pinf
  deriving DecidableEq, Inhabited

/-- The comparison `a > b` of two doubles: false when one of them is NaN, and with
`+inf` above and `-inf` below every finite number. -/
def double_gt : double → double → Bool
  | .nan, _ => false
  | _, .nan => false
  | .pinf, .pinf => false
  | .pinf, _ => true
  | _, .pinf => false
  | .ninf, _ => false
  | _, .ninf => true
  | .fin a, .fin b => decide (b < a)

/-- The comparison `a <= b` of two doubles: false when one of them is NaN. -/
def double_le : double → double → Bool
  | .nan, _ => false
  | _, .nan => false
  | .ninf, _ => true
  | _, .pinf => true
  | .pinf, _ => false
  | _, .ninf => false
  | .fin a, .fin b => decide (a ≤ b)

/-- The test `gsl_isnan(x)`. -/
def double_isnan : double → Bool
  | .nan => true
  | _ => false

/-- The integer nearest to `x`, the even one of the two nearest when `x` is halfway
between them. -/
def round_half_even (x : ℚ) : Int :=
  if x - ⌊x⌋ < 1 / 2 then ⌊x⌋
  else if 1 / 2 < x - ⌊x⌋ then ⌊x⌋ + 1
  else if ⌊x⌋ % 2 = 0 then ⌊x⌋ else ⌊x⌋ + 1

/-- The rounding of a rational number to binary64, to nearest with ties to even: the
nearest multiple of `2^(e-52)`, where `2^e ≤ |x| < 2^(e+1)` and `e` is not below
`-1022`, and an infinity when that multiple is beyond the largest double. -/
def double_round (x : ℚ) : double :=
  let e : Int := max (Int.log 2 |x|) (-1022)
  let y : ℚ := round_half_even (x / 2 ^ (e - 52)) * 2 ^ (e - 52)
  if 2 ^ 1024 ≤ y then .pinf else if y ≤ -(2 ^ 1024) then .ninf else .fin y

/-- The quotient `t/(double)n` of two `int`s.  Both convert to `double` without
rounding; the quotient of IEEE 754 is NaN for `0/0`, an infinity for another number
over 0, and otherwise the rounding of the exact quotient. -/
def double_ratio (t n : Int) : double :=
  if n = 0 then (if t = 0 then .nan else if 0 < t then .pinf else .ninf)
  else double_round ((t : ℚ) / (n : ℚ))

/-- The values of the C library's `exp` that the C standard and the range of binary64
fix: NaN for NaN, `+inf` for `+inf`, 0 for `-inf`, 1 for 0, and `+inf` for a finite
argument from 710 on, where `e^x` is beyond the largest double.  For every other
argument the value depends on the rounding of the library and is not given. -/
def double_exp : double → Option double
  | .nan => some .nan
  | .pinf => some .pinf
  | .ninf => some (.fin 0)
  | .fin x => if x = 0 then some (.fin 1) else if 710 ≤ x then some .pinf else none

/-- The values of the C library's `log` that the C standard fixes: NaN for NaN and
for a negative argument, `+inf` for `+inf`, `-inf` for 0 and 0 for 1.  For every other
argument the value depends on the rounding of the library and is not given. -/
def double_log : double → Option double
  | .nan => some .nan
  | .pinf => some .pinf
  | .ninf => some .nan
  | .fin x =>
    if x = 0 then some .ninf else if x = 1 then some (.fin 0)
    else if x < 0 then some .nan else none

/-- A double as far as `double_exp` and `double_log` give it: `none` stands for a
double that is left to the rounding of the C library. -/
abbrev libm_double := Option double

instance : Zero libm_double := ⟨some (.fin 0)⟩

/-- The function `exp` of the C library on `libm_double`. -/
def libm_exp (x : libm_double) : libm_double := x.bind double_exp

/-- The function `log` of the C library on `libm_double`. -/
def libm_log (x : libm_double) : libm_double := x.bind double_log

/-- A descriptor whose only operation is `log_likelihood`, at function address 8. -/
def ll_only_model : apop_model := { example_model with log_likelihood := some 8 }

/-- A heap holding `ll_only_model` at address 0. -/
def ll_only_world : World libm_double :=
  { heap := [some (.model ll_only_model)], rng_seed := 0, errors := [] }

/-- A model whose only operation is `draw`. -/
def draw_model : apop_model := { example_model with draw := some 9 }

/-- A data set whose matrix has the single row `row`. -/
def query_data (row : List double) : apop_data double :=
  { vector := none, weights := none,
    matrix := some { size1 := 1, size2 := row.length, data := row }, title := "" }

/-- A heap holding `draw_model`, the query point `row`, a CDF settings group with the
given draw count, and the stream of the group. -/
def mc_world (draws : Int) (row : List double) : World double :=
  { heap := [some (.model draw_model), some (.data (query_data row)),
             some (.cdf { cdf_model := none, draws := draws, rng := some 3 }),
             some (.rng 7)],
    rng_seed := 8, errors := [] }

/-- A model whose only operation is `predict`, at function address 5. -/
def predict_model : apop_model := { example_model with predict := some 5 }

/-- A heap holding `predict_model` at address 0 and the data set with the single row
(1, 2), which has no NaN entry, at address 1. -/
def predict_world : World double :=
  { heap := [some (.model predict_model), some (.data (query_data [.fin 1, .fin 2]))],
    rng_seed := 0, errors := [] }

/-- Externals whose `predict` overwrites every entry of the matrix it is given with
NaN and returns no prediction, and whose imputation routine is `imp`. -/
def nan_predict_externals
    (imp : Option Ptr → Option Ptr → World double → Except Fault (Option Ptr × World double)) :
    Externals double :=
  { const_externals (.fin 0) (.fin 0) [] none example_model with
    predict := fun _ d _ w =>
      match d with
      | some p => (set_all_nan .nan p w).map (fun w1 => (none, w1))
      | none => .ok (none, w)
    apop_ml_imputation := imp }

end examples_dispatch

section statements_dispatch
variable {R : Type}

/-- The draw function that `apop_draw` calls for a model: its `draw` operation, or
`apop_arms_draw`. -/
def model_draw (D : Externals R) (m : apop_model) : Int → Option Ptr → World R → List R × Int :=
  match m.draw with
  | some f => D.draw f
  | none => D.apop_arms_draw

/-- The buffers left by `n` calls of `apop_draw` in a row on the same buffer, stream
and model, and the heap after them. -/
def draws_of (D : Externals R) (r m : Option Ptr) :
    Nat → List R → World R → Except Fault (List (List R) × World R)
  | 0, _, w => .ok ([], w)
  | n + 1, v, w =>
    match apop_draw D v r m w with
    | .error e => .error e
    | .ok res =>
      match draws_of D r m n res.1 res.2 with
      | .error e => .error e
      | .ok rest => .ok (res.1 :: rest.1, rest.2)

/-- Every component of `v` is at most the component of `ref` at the same place: none
is greater. -/
def all_le (gt : R → R → Bool) (v ref : List R) : Bool :=
  (v.zip ref).all (fun p => !gt p.1 p.2)

end statements_dispatch

/-! ## Lemmas on the heap -/

section lemmas
variable {R : Type}

theorem load_alloc_self (w : World R) (o : Obj R) : (w.alloc o).2.load (w.alloc o).1 = .ok o := by
  simp [World.alloc, World.load]

theorem load_alloc_of_ne (w : World R) (o : Obj R) (p : Ptr) (h : p ≠ w.heap.length) :
    (w.alloc o).2.load p = w.load p := by
  unfold World.alloc World.load
  simp only [List.getElem?_append]
  by_cases hp : p < w.heap.length
  · simp [hp]
  · have h1 : w.heap.length ≤ p := Nat.le_of_not_lt hp
    have h2 : w.heap[p]? = none := List.getElem?_eq_none h1
    have h' : w.heap.length < p := Nat.lt_of_le_of_ne h1 (Ne.symm h)
    obtain ⟨k, hk⟩ : ∃ k, p - w.heap.length = k + 1 :=
      ⟨p - w.heap.length - 1, (Nat.sub_add_cancel (Nat.sub_pos_of_lt h')).symm⟩
    simp [hp, h2, hk]

theorem load_ok_lt {w : World R} {p : Ptr} {o : Obj R} (h : w.load p = .ok o) :
    p < w.heap.length := by
  unfold World.load at h
  by_contra hp
  have h2 : w.heap[p]? = none := List.getElem?_eq_none (Nat.le_of_not_lt hp)
  simp [h2] at h

theorem load_store_self {w : World R} {p : Ptr} (o : Obj R) (h : p < w.heap.length) :
    (w.store p o).load p = .ok o := by
  simp [World.store, World.load, h]

theorem load_store_of_ne (w : World R) (o : Obj R) {p q : Ptr} (h : p ≠ q) :
    (w.store q o).load p = w.load p := by
  simp [World.store, World.load, List.getElem?_set_ne (Ne.symm h)]

theorem load_release {w w1 : World R} {q : Ptr} (h : w.release q = .ok w1) (p : Ptr) :
    w1.load p = if p = q then .error .invalid_pointer else w.load p := by
  unfold World.release at h
  split at h
  · injection h with h
    subst h
    by_cases hpq : p = q
    · subst hpq
      simp [World.load, List.getElem?_set]
    · simp [World.load, hpq, List.getElem?_set_ne (Ne.symm hpq)]
  · cases h


theorem length_store (w : World R) (p : Ptr) (o : Obj R) :
    (w.store p o).heap.length = w.heap.length := by
  simp [World.store]

theorem length_alloc (w : World R) (o : Obj R) :
    (w.alloc o).2.heap.length = w.heap.length + 1 := by
  simp [World.alloc]

theorem model_of_load {w : World R} {p : Ptr} {m : apop_model} (h : w.load p = .ok (.model m)) :
    w.model p = .ok m := by
  simp [World.model, h]

theorem load_of_model {w : World R} {p : Ptr} {m : apop_model} (h : w.model p = .ok m) :
    w.load p = .ok (.model m) := by
  unfold World.model at h
  split at h <;> simp_all

theorem data_of_load {w : World R} {p : Ptr} {d : apop_data R} (h : w.load p = .ok (.data d)) :
    w.data p = .ok d := by
  simp [World.data, h]

theorem load_of_data {w : World R} {p : Ptr} {d : apop_data R} (h : w.data p = .ok d) :
    w.load p = .ok (.data d) := by
  unfold World.data at h
  split at h <;> simp_all

theorem release_ok {w : World R} {p : Ptr} {o : Obj R} (h : w.load p = .ok o) :
    ∃ w1, w.release p = .ok w1 ∧ w1.heap.length = w.heap.length ∧
      w1.rng_seed = w.rng_seed ∧ w1.errors = w.errors := by
  unfold World.load at h
  unfold World.release
  split at h
  · rename_i o1 h1
    simp [h1]
  · cases h

/-- What `apop_data_free` leaves behind when its argument is `NULL` or a live data set. -/
theorem apop_data_free_ok {w : World R} {d : Option Ptr}
    (h : ∀ p, d = some p → ∃ x, w.data p = .ok x) :
    ∃ w1, apop_data_free d w = .ok w1 ∧ w1.heap.length = w.heap.length ∧
      w1.rng_seed = w.rng_seed ∧ w1.errors = w.errors ∧
      ∀ p, w1.load p = if d = some p then .error .invalid_pointer else w.load p := by
  cases d with
  | none => exact ⟨w, rfl, rfl, rfl, rfl, fun p => by simp⟩
  | some a =>
    obtain ⟨x, hx⟩ := h a rfl
    obtain ⟨w1, h1, h2, h3, h4⟩ := release_ok (load_of_data hx)
    refine ⟨w1, ?_, h2, h3, h4, fun p => ?_⟩
    · simp [apop_data_free, hx, h1]
    · rw [load_release h1 p]
      by_cases hp : p = a
      · simp [hp]
      · have : ¬ a = p := fun e => hp e.symm
        simp [hp, this]


theorem null_or_data_spec {w : World R} {d : Option Ptr} (h : null_or_data w d = true) :
    ∀ p, d = some p → ∃ x, w.data p = .ok x := by
  intro p hp
  subst hp
  unfold null_or_data at h
  simp only at h
  split at h
  · rename_i x hx
    exact ⟨x, data_of_load hx⟩
  · cases h

theorem owned_ok_spec {w : World R} {m : apop_model} (h : owned_ok w m = true) :
    (∀ p, m.parameters = some p → ∃ x, w.data p = .ok x) ∧
    (∀ p, m.info = some p → ∃ x, w.data p = .ok x) ∧
    (∀ p, m.parameters = some p → m.info ≠ some p) := by
  unfold owned_ok at h
  simp only [Bool.and_eq_true, Bool.or_eq_true, decide_eq_true_eq] at h
  obtain ⟨⟨h1, h2⟩, h3⟩ := h
  refine ⟨null_or_data_spec h1, null_or_data_spec h2, fun p hp hi => ?_⟩
  rcases h3 with h3 | h3
  · simp [hp] at h3
  · exact h3 (hp.trans hi.symm)

theorem data_store_model {w : World R} {q : Ptr} {m : apop_model} (hq : w.model q = .ok m)
    (m1 : apop_model) (p : Ptr) : (w.store q (.model m1)).data p = w.data p := by
  by_cases hp : p = q
  · subst hp
    have h1 := load_of_model hq
    simp [World.data, load_store_self _ (load_ok_lt h1), h1]
  · simp [World.data, load_store_of_ne w _ hp]

theorem resolve_size_store {w : World R} {q : Ptr} {m : apop_model} (hq : w.model q = .ok m)
    (m1 : apop_model) (data : Option Ptr) (b : Int) :
    resolve_size (w.store q (.model m1)) data b = resolve_size w data b := by
  unfold resolve_size matrix_size2
  cases data with
  | none => rfl
  | some dp => simp only [data_store_model hq]

theorem update_model_ok {w : World R} {q : Ptr} {m : apop_model} (hq : w.load q = .ok (.model m))
    (f : apop_model → apop_model) :
    w.update_model q f = .ok (w.store q (.model (f m))) := by
  simp [World.update_model, model_of_load hq]

theorem alloc_spec (w : World R) (o : Obj R) :
    ∃ w1, w.alloc o = (w.heap.length, w1) ∧ w1.heap.length = w.heap.length + 1 ∧
      w1.rng_seed = w.rng_seed ∧ w1.errors = w.errors ∧ w1.load w.heap.length = .ok o ∧
      ∀ r, r ≠ w.heap.length → w1.load r = w.load r :=
  ⟨(w.alloc o).2, rfl, length_alloc w o, rfl, rfl, load_alloc_self w o,
    fun r hr => load_alloc_of_ne w o r hr⟩

theorem update_model_spec {w : World R} {q : Ptr} {m : apop_model}
    (hq : w.load q = .ok (.model m)) (f : apop_model → apop_model) :
    ∃ w1, w.update_model q f = .ok w1 ∧ w1.heap.length = w.heap.length ∧
      w1.rng_seed = w.rng_seed ∧ w1.errors = w.errors ∧ w1.load q = .ok (.model (f m)) ∧
      ∀ r, r ≠ q → w1.load r = w.load r :=
  ⟨w.store q (.model (f m)), update_model_ok hq f, length_store _ _ _, rfl, rfl,
    load_store_self _ (load_ok_lt hq), fun _ hr => load_store_of_ne w _ hr⟩

theorem clear_sizes_ok {w : World R} {q : Ptr} {m : apop_model} {data : Option Ptr}
    {ds vs ms1 ms2 : Int} (hm : w.model q = .ok m)
    (hds : resolve_size w data m.dsize = .ok ds) (hvs : resolve_size w data m.vbase = .ok vs)
    (h1 : resolve_size w data m.m1base = .ok ms1) (h2 : resolve_size w data m.m2base = .ok ms2) :
    clear_sizes data q m w = (w.store q (.model { m with dsize := ds }), .ok (vs, ms1, ms2)) := by
  simp only [clear_sizes, hds, resolve_size_store hm, hvs, h1, h2, bind, Except.bind, pure,
    Except.pure]

theorem apop_model_clear_ok [Inhabited R] {w : World R} {q : Ptr} {m : apop_model}
    {data : Option Ptr} {ds vs ms1 ms2 : Int}
    (hm : w.model q = .ok m) (hown : owned_ok w m = true)
    (hds : resolve_size w data m.dsize = .ok ds) (hvs : resolve_size w data m.vbase = .ok vs)
    (h1 : resolve_size w data m.m1base = .ok ms1) (h2 : resolve_size w data m.m2base = .ok ms2) :
    ∃ w1, apop_model_clear data (some q) w = .ok (some q, w1) ∧
      w1.model q = .ok { m with dsize := ds, parameters := some w.heap.length,
                                info := some (w.heap.length + 1), data := data } ∧
      w1.data w.heap.length = .ok (apop_data_alloc vs ms1 ms2) ∧
      w1.data (w.heap.length + 1) =
        .ok { (apop_data_alloc 0 0 0 : apop_data R) with title := "Info" } ∧
      w1.heap.length = w.heap.length + 2 ∧
      w1.rng_seed = w.rng_seed ∧ w1.errors = w.errors ∧
      ∀ p, p < w.heap.length → p ≠ q → m.parameters ≠ some p → m.info ≠ some p →
        w1.load p = w.load p := by
  obtain ⟨hp, hi, hpi⟩ := owned_ok_spec hown
  have hlq := load_of_model hm
  have hq := load_ok_lt hlq
  have hnp : m.parameters ≠ some q := fun e => by
    obtain ⟨x, hx⟩ := hp q e
    have := load_of_data hx
    rw [hlq] at this
    cases this
  have hni : m.info ≠ some q := fun e => by
    obtain ⟨x, hx⟩ := hi q e
    have := load_of_data hx
    rw [hlq] at this
    cases this
  -- model->dsize = ...
  obtain ⟨w1, e1, l1, s1, r1, q1, f1⟩ := update_model_spec hlq (fun x => { x with dsize := ds })
  have e1' : w.store q (.model { m with dsize := ds }) = w1 := by
    have := update_model_ok hlq (fun x => { x with dsize := ds })
    rw [e1] at this
    injection this with this
    exact this.symm
  -- apop_data_free(model->parameters)
  obtain ⟨w2, e2, l2, s2, r2, f2⟩ := apop_data_free_ok (w := w1) (d := m.parameters)
    (fun p h => by
      obtain ⟨x, hx⟩ := hp p h
      have hpq : p ≠ q := fun e => hnp (e ▸ h)
      exact ⟨x, data_of_load ((f1 p hpq).trans (load_of_data hx))⟩)
  -- apop_data_free(model->info)
  obtain ⟨w3, e3, l3, s3, r3, f3⟩ := apop_data_free_ok (w := w2) (d := m.info) (fun p h => by
    obtain ⟨x, hx⟩ := hi p h
    have hpq : p ≠ q := fun e => hni (e ▸ h)
    have hne : m.parameters ≠ some p := fun e => hpi p e h
    refine ⟨x, data_of_load ?_⟩
    rw [f2, if_neg hne, f1 p hpq]
    exact load_of_data hx)
  have hl3 : w3.heap.length = w.heap.length := by rw [l3, l2, l1]
  have hq3 : w3.load q = .ok (.model { m with dsize := ds }) := by
    rw [f3, if_neg hni, f2, if_neg hnp, q1]
  have hqne : q ≠ w.heap.length := Nat.ne_of_lt hq
  have hqne1 : q ≠ w.heap.length + 1 := Nat.ne_of_lt (Nat.lt_succ_of_lt hq)
  -- model->parameters = apop_data_alloc(vsize, msize1, msize2)
  obtain ⟨wa, ea, la, sa, ra, qa, fa⟩ := alloc_spec w3 (.data (apop_data_alloc vs ms1 ms2))
  rw [hl3] at ea la qa fa
  obtain ⟨w4, e4, l4, s4, r4, q4, f4⟩ := update_model_spec (w := wa) (q := q)
    ((fa q hqne).trans hq3) (fun x => { x with parameters := some w.heap.length })
  -- model->info = apop_data_alloc(0, 0, 0)
  obtain ⟨wb, eb, lb, sb, rb, qb, fb⟩ := alloc_spec w4
    (.data { (apop_data_alloc 0 0 0 : apop_data R) with title := "Info" })
  rw [l4, la] at eb lb qb fb
  obtain ⟨w5, e5, l5, s5, r5, q5, f5⟩ := update_model_spec (w := wb) (q := q)
    ((fb q hqne1).trans q4) (fun x => { x with info := some (w.heap.length + 1) })
  -- model->data = data
  obtain ⟨w6, e6, l6, s6, r6, q6, f6⟩ := update_model_spec (w := w5) (q := q) q5
    (fun x => { x with data := data })
  have hne01 : w.heap.length ≠ w.heap.length + 1 := Nat.ne_of_lt (Nat.lt_succ_self _)
  refine ⟨w6, ?_, model_of_load q6, data_of_load ?_, data_of_load ?_, ?_, ?_, ?_, ?_⟩
  · simp only [apop_model_clear, clear_replace, deref, hm, clear_sizes_ok hm hds hvs h1 h2,
      e1', e2, e3, ea, e4, eb, e5, e6, bind, Except.bind, pure, Except.pure]
  · rw [f6 _ hqne.symm, f5 _ hqne.symm, fb _ hne01, f4 _ hqne.symm, qa]
  · rw [f6 _ hqne1.symm, f5 _ hqne1.symm, qb]
  · rw [l6, l5, lb]
  · rw [s6, s5, sb, s4, sa, s3, s2, s1]
  · rw [r6, r5, rb, r4, ra, r3, r2, r1]
  · intro p hpl hpq hpp hpi'
    have a1 : p ≠ w.heap.length := Nat.ne_of_lt hpl
    have a2 : p ≠ w.heap.length + 1 := Nat.ne_of_lt (Nat.lt_succ_of_lt hpl)
    rw [f6 _ hpq, f5 _ hpq, fb _ a2, f4 _ hpq, fa _ a1, f3, if_neg hpi', f2, if_neg hpp, f1 _ hpq]

theorem to_int_of_lt {n : Nat} (h : n < 2147483648) : to_int n = (n : Int) := by
  have h1 : n % 4294967296 = n := Nat.mod_eq_of_lt (by omega)
  simp [to_int, h1, h]

theorem resolve_size_of_matrix {w : World R} {dp : Ptr} {d : apop_data R} {x : gsl_matrix R}
    (hd : w.data dp = .ok d) (hx : d.matrix = some x) (b : Int) :
    resolve_size w (some dp) b = .ok (if b = -1 then to_int x.size2 else b) := by
  unfold resolve_size matrix_size2
  simp only [hd, hx]
  split <;> rfl

theorem set_same {α : Type} : ∀ (l : List α) (i : Nat) (a : α), l[i]? = some a → l.set i a = l
  | [], _, _, h => by simp at h
  | x :: l, 0, a, h => by
    simp only [List.getElem?_cons_zero, Option.some.injEq] at h
    simp [h]
  | x :: l, i + 1, a, h => by
    simp only [List.getElem?_cons_succ] at h
    simp [set_same l i a h]

theorem store_same {w : World R} {q : Ptr} {m : apop_model} (hm : w.model q = .ok m) :
    w.store q (.model m) = w := by
  have h := load_of_model hm
  unfold World.load at h
  have h1 : w.heap[q]? = some (some (.model m)) := by
    split at h
    · rename_i o ho
      injection h with h
      rw [ho, h]
    · cases h
  unfold World.store
  rw [set_same _ _ _ h1]

theorem resolve_size_null (w : World R) (b : Int) :
    resolve_size w none b = if b = -1 then .error .null_deref else .ok b := by
  simp [resolve_size, matrix_size2]

theorem errors_ne_append (l : List (ErrorKind × String)) (x : ErrorKind × String) :
    l ≠ l ++ [x] := by
  intro h
  have := congrArg List.length h
  simp at this

theorem getElem?_middle {α : Type} (seen : List α) (e : α) (rest : List α) :
    (seen ++ e :: rest)[seen.length]? = some e := by
  rw [List.getElem?_append_right (Nat.le_refl _)]
  simp

theorem free_settings_loop_spec (call : HookFn → Option Ptr → World R → Except Fault (World R))
    (q sp : Ptr) (m : apop_model) (hsp : m.settings = some sp) (s : apop_settings_type)
    (post : List apop_settings_type) (hs : s.name.length = 0) :
    ∀ (todo seen : List apop_settings_type) (n : Nat) (w : World R),
      (∀ e ∈ todo, e.name.length ≠ 0) → todo.length < n →
      w.model q = .ok m → w.settings sp = .ok (seen ++ (todo ++ s :: post)) →
      hooks_keep call q sp (hook_calls todo) w →
      free_settings_loop call q n seen.length w = run_hooks call (hook_calls todo) w := by
  intro todo
  induction todo with
  | nil =>
    intro seen n w _ hn hm hw _
    obtain ⟨k, rfl⟩ : ∃ k, n = k + 1 := ⟨n - 1, by omega⟩
    simp only [free_settings_loop, hm, hsp, hw, List.nil_append, getElem?_middle, hs,
      if_true, hook_calls, List.filterMap_nil, run_hooks]
  | cons e todo ih =>
    intro seen n w hpre hn hm hw hk
    obtain ⟨k, rfl⟩ : ∃ k, n = k + 1 := ⟨n - 1, by omega⟩
    have hk1 : todo.length < k := by
      simp only [List.length_cons] at hn
      omega
    have he : e.name.length ≠ 0 := hpre e (List.mem_cons_self _ _)
    have hpre1 : ∀ x ∈ todo, x.name.length ≠ 0 := fun x hx => hpre x (List.mem_cons_of_mem _ hx)
    have hw1 : (seen ++ [e]) ++ (todo ++ s :: post) = seen ++ (e :: todo ++ s :: post) := by
      simp
    have hl : (seen ++ [e]).length = seen.length + 1 := by simp
    cases hf : e.free with
    | none =>
      have hc : hook_calls (e :: todo) = hook_calls todo := by
        simp [hook_calls, hf]
      rw [hc] at hk ⊢
      simp only [free_settings_loop, hm, hsp, hw, List.cons_append, getElem?_middle, he,
        if_false, hf]
      rw [← hl]
      exact ih (seen ++ [e]) k w hpre1 hk1 hm (by rw [hw1]; exact hw) hk
    | some f =>
      have hc : hook_calls (e :: todo) = (f, e.setting_group) :: hook_calls todo := by
        simp [hook_calls, hf]
      rw [hc] at hk ⊢
      simp only [free_settings_loop, hm, hsp, hw, List.cons_append, getElem?_middle, he,
        if_false, hf, run_hooks]
      cases hcall : call f e.setting_group w with
      | error x => rfl
      | ok w1 =>
        obtain ⟨k1, k2, k3⟩ := hk w1 hcall
        simp only
        rw [← hl]
        exact ih (seen ++ [e]) k w1 hpre1 hk1 (k1.trans hm) (by rw [k2, hw1]; exact hw) k3

theorem run_hooks_keep (call : HookFn → Option Ptr → World R → Except Fault (World R))
    (q sp : Ptr) : ∀ (cs : List (HookFn × Option Ptr)) (w w2 : World R),
      hooks_keep call q sp cs w → run_hooks call cs w = .ok w2 →
      w2.model q = w.model q ∧ w2.settings sp = w.settings sp := by
  intro cs
  induction cs with
  | nil =>
    intro w w2 _ h
    injection h with h
    subst h
    exact ⟨rfl, rfl⟩
  | cons c cs ih =>
    intro w w2 hk h
    simp only [run_hooks] at h
    split at h
    · rename_i w1 hc
      obtain ⟨k1, k2, k3⟩ := hk w1 hc
      obtain ⟨a, b⟩ := ih w1 w2 k3 h
      exact ⟨a.trans k1, b.trans k2⟩
    · cases h

theorem copy_settings_loop_ok {E : Env R} (hE : store_calls_ok E) (q : Ptr) (in_ m0 : apop_model)
    (pre : List apop_settings_type) (s : apop_settings_type) (post : List apop_settings_type)
    (hs : s.name.length = 0) (hpre : ∀ e ∈ pre, e.name.length ≠ 0) (w : World R)
    (hq : ∃ t, w.model q = .ok { m0 with settings := t }) :
    ∃ w1, copy_settings_loop E (some q) in_ (pre ++ s :: post) w = .ok w1 ∧
      (∃ t, w1.model q = .ok { m0 with settings := t }) ∧
      (∀ p x, w.data p = .ok x → w1.data p = .ok x) := by
  induction pre generalizing w with
  | nil =>
    obtain ⟨w1, e1, m1, d1⟩ := hE q in_ s.name w
    obtain ⟨t, ht⟩ := hq
    obtain ⟨t1, ht1⟩ := m1 _ ht
    exact ⟨w1, by simp [copy_settings_loop, e1, hs], ⟨t1, ht1⟩, d1⟩
  | cons e pre ih =>
    have he : e.name.length ≠ 0 := hpre e (List.mem_cons_self _ _)
    have hpre1 : ∀ x ∈ pre, x.name.length ≠ 0 := fun x hx => hpre x (List.mem_cons_of_mem _ hx)
    obtain ⟨w1, e1, m1, d1⟩ := hE q in_ e.name w
    obtain ⟨t, ht⟩ := hq
    obtain ⟨t1, ht1⟩ := m1 _ ht
    obtain ⟨w2, e2, m2, d2⟩ := ih hpre1 w1 ⟨t1, ht1⟩
    refine ⟨w2, ?_, m2, fun p x h => d2 p x (d1 p x h)⟩
    simp only [List.cons_append, copy_settings_loop, e1, ne_eq, ite_not]
    rw [if_neg he]
    exact e2


theorem bytes_of_load {w : World R} {p : Ptr} {b : List Nat} (h : w.load p = .ok (.bytes b)) :
    w.bytes p = .ok b := by
  simp [World.bytes, h]

theorem load_of_bytes {w : World R} {p : Ptr} {b : List Nat} (h : w.bytes p = .ok b) :
    w.load p = .ok (.bytes b) := by
  unfold World.bytes at h
  split at h <;> simp_all

theorem settings_of_load {w : World R} {p : Ptr} {l : List apop_settings_type}
    (h : w.load p = .ok (.store l)) : w.settings p = .ok l := by
  simp [World.settings, h]

theorem load_of_settings {w : World R} {p : Ptr} {l : List apop_settings_type}
    (h : w.settings p = .ok l) : w.load p = .ok (.store l) := by
  unfold World.settings at h
  split at h <;> simp_all

theorem copy_more_ok {w : World R} {q : Ptr} {m0 : apop_model} (in_ : apop_model)
    (hq : w.load q = .ok (.model m0))
    (hmore : in_.more_size = 0 ∨
      ∃ src b, in_.more = some src ∧ w.bytes src = .ok b ∧ in_.more_size ≤ b.length) :
    ∃ w1 mo, copy_more in_ q w = .ok w1 ∧ w1.load q = .ok (.model { m0 with more := mo }) ∧
      (in_.more_size = 0 → mo = m0.more) ∧
      ∀ r, r < w.heap.length → r ≠ q → w1.load r = w.load r := by
  by_cases h0 : in_.more_size = 0
  · exact ⟨w, m0.more, by simp [copy_more, h0], hq, fun _ => rfl, fun _ _ _ => rfl⟩
  · rcases hmore with h | ⟨src, b, hs, hb, hl⟩
    · exact absurd h h0
    · obtain ⟨wc, ec, lc, -, -, qc, fc⟩ := alloc_spec w (.bytes (b.take in_.more_size))
      have hqlt := load_ok_lt hq
      obtain ⟨w1, e1, l1, -, -, q1, f1⟩ := update_model_spec (w := wc) (q := q)
        ((fc q (Nat.ne_of_lt hqlt)).trans hq) (fun x => { x with more := some w.heap.length })
      refine ⟨w1, some w.heap.length, ?_, q1, fun h => absurd h h0, fun r hr hrq => ?_⟩
      · simp only [copy_more, ne_eq, h0, not_false_eq_true, if_true, hs, hb,
          Nat.not_lt.mpr hl, if_false, ec, e1]
      · rw [f1 r hrq, fc r (Nat.ne_of_lt hr)]

theorem apop_data_copy_ok {w : World R} {d : Option Ptr} (h : null_or_data w d = true) :
    ∃ w1 r, apop_data_copy d w = .ok (r, w1) ∧
      (∀ p, p < w.heap.length → w1.load p = w.load p) ∧
      w.heap.length ≤ w1.heap.length ∧
      (d = none → r = none) ∧
      (∀ p, d = some p → ∃ x, w.data p = .ok x ∧ r = some w.heap.length ∧
        w1.load w.heap.length = .ok (.data x) ∧ w1.heap.length = w.heap.length + 1) := by
  cases d with
  | none =>
    exact ⟨w, none, rfl, fun _ _ => rfl, Nat.le_refl _, fun _ => rfl, fun p hp => by cases hp⟩
  | some a =>
    obtain ⟨x, hx⟩ := null_or_data_spec h a rfl
    obtain ⟨w1, e1, l1, -, -, q1, f1⟩ := alloc_spec w (.data x)
    refine ⟨w1, some w.heap.length, ?_, fun p hp => f1 p (Nat.ne_of_lt hp), ?_,
      fun h0 => (by cases h0), fun p hp => ?_⟩
    · simp [apop_data_copy, hx, e1]
    · rw [l1]; exact Nat.le_succ _
    · injection hp with hp
      subst hp
      exact ⟨x, hx, rfl, q1, l1⟩


theorem null_or_data_intro {w : World R} {d : Option Ptr}
    (h : ∀ p, d = some p → ∃ x, w.data p = .ok x) : null_or_data w d = true := by
  cases d with
  | none => rfl
  | some a =>
    obtain ⟨x, hx⟩ := h a rfl
    simp [null_or_data, load_of_data hx]

theorem null_or_data_kept {w w1 : World R} (hk : ∀ p x, w.data p = .ok x → w1.data p = .ok x)
    {d : Option Ptr} (h : null_or_data w d = true) : null_or_data w1 d = true :=
  null_or_data_intro (fun p hp => by
    obtain ⟨x, hx⟩ := null_or_data_spec h p hp
    exact ⟨x, hk p x hx⟩)

theorem copy_settings_ok {E : Env R} (hE : store_calls_ok E) (in_ m0 : apop_model) (q : Ptr)
    (w : World R) (hq : w.model q = .ok { m0 with settings := none })
    (hset : in_.settings = none ∨ ∃ sp pre s post, in_.settings = some sp ∧
      w.settings sp = .ok (pre ++ s :: post) ∧ s.name.length = 0 ∧
      ∀ e ∈ pre, e.name.length ≠ 0) :
    ∃ w1 st, copy_settings E in_ q w = .ok w1 ∧ w1.model q = .ok { m0 with settings := st } ∧
      ∀ p x, w.data p = .ok x → w1.data p = .ok x := by
  rcases hset with h | ⟨sp, pre, s, post, h, hl, hs, hpre⟩
  · exact ⟨w, none, by simp [copy_settings, h], hq, fun _ _ hx => hx⟩
  · obtain ⟨w1, e1, ⟨t, ht⟩, d1⟩ :=
      copy_settings_loop_ok hE q in_ m0 pre s post hs hpre w ⟨none, hq⟩
    exact ⟨w1, t, by simp [copy_settings, h, hl, e1], ht, d1⟩


theorem null_or_data_of_copy {w w5 : World R} {a b : Option Ptr} (h : copy_of w w5 a b) :
    null_or_data w5 b = true := by
  unfold copy_of at h
  cases a with
  | none =>
    simp only at h
    subst h
    rfl
  | some p =>
    obtain ⟨p1, x, hb, -, -, -, -, hx⟩ := h
    subst hb
    simp [null_or_data, load_of_data hx]

theorem apop_model_copy_ok {E : Env R} (hE : store_calls_ok E) (in_ : apop_model) (w : World R)
    (hp : null_or_data w in_.parameters = true) (hi : null_or_data w in_.info = true)
    (hmore : more_ok w in_) (hset : settings_ok w in_) :
    ∃ w5 mo st pp ip, apop_model_copy E in_ w = .ok (some w.heap.length, w5) ∧
      w5.model w.heap.length =
        .ok { in_ with more := mo, settings := st, parameters := pp, info := ip } ∧
      (in_.more_size = 0 → mo = in_.more) ∧
      (∀ p x, w.data p = .ok x → w5.data p = .ok x) ∧
      copy_of w w5 in_.parameters pp ∧ copy_of w w5 in_.info ip ∧
      owned_ok w5 { in_ with more := mo, settings := st, parameters := pp, info := ip } = true := by
  -- out = malloc(...); memcpy(out, &in, ...)
  obtain ⟨wa, ea, la, -, -, qa, fa⟩ := alloc_spec w (.model in_)
  have hmore1 : in_.more_size = 0 ∨
      ∃ src b, in_.more = some src ∧ wa.bytes src = .ok b ∧ in_.more_size ≤ b.length := by
    rcases hmore with h | ⟨src, b, h1, h2, h3⟩
    · exact Or.inl h
    · have hl := load_of_bytes h2
      exact Or.inr ⟨src, b, h1,
        bytes_of_load ((fa src (Nat.ne_of_lt (load_ok_lt hl))).trans hl), h3⟩
  -- the `more` blob
  obtain ⟨w1, mo, e1, q1, hmo, f1⟩ := copy_more_ok in_ qa hmore1
  -- out->settings = NULL
  obtain ⟨w2, e2, l2, -, -, q2, f2⟩ := update_model_spec q1 (fun x => { x with settings := none })
  have k2 : ∀ r, r < w.heap.length → w2.load r = w.load r := fun r hr => by
    have hrq : r ≠ w.heap.length := Nat.ne_of_lt hr
    rw [f2 r hrq, f1 r (by rw [la]; exact Nat.lt_succ_of_lt hr) hrq, fa r hrq]
  have hset2 : in_.settings = none ∨ ∃ sp pre s post, in_.settings = some sp ∧
      w2.settings sp = .ok (pre ++ s :: post) ∧ s.name.length = 0 ∧
      ∀ e ∈ pre, e.name.length ≠ 0 := by
    rcases hset with h | ⟨sp, pre, s, post, h, hl, hs, hpre⟩
    · exact Or.inl h
    · have hl1 := load_of_settings hl
      exact Or.inr ⟨sp, pre, s, post, h,
        settings_of_load ((k2 sp (load_ok_lt hl1)).trans hl1), hs, hpre⟩
  -- the settings groups
  obtain ⟨w3, st, e3, q3, d3⟩ := copy_settings_ok hE in_ { in_ with more := mo } w.heap.length w2
    (model_of_load q2) hset2
  have kd3 : ∀ p x, w.data p = .ok x → w3.data p = .ok x := fun p x hx => by
    have hl := load_of_data hx
    exact d3 p x (data_of_load ((k2 p (load_ok_lt hl)).trans hl))
  have hq3 := load_of_model q3
  have hqlt3 := load_ok_lt hq3
  -- out->parameters = apop_data_copy(in.parameters)
  obtain ⟨wp, pp, ep, fp, lp, np, sp⟩ := apop_data_copy_ok (null_or_data_kept kd3 hp)
  obtain ⟨w4, e4, l4, -, -, q4, f4⟩ := update_model_spec (w := wp) (q := w.heap.length)
    ((fp _ hqlt3).trans hq3) (fun x => { x with parameters := pp })
  have k4 : ∀ r, r < w3.heap.length → r ≠ w.heap.length → w4.load r = w3.load r :=
    fun r hr hrq => by rw [f4 r hrq, fp r hr]
  have kd4 : ∀ p x, w3.data p = .ok x → w4.data p = .ok x := fun p x hx => by
    have hl := load_of_data hx
    have hne : p ≠ w.heap.length := fun e => by
      rw [e, hq3] at hl
      cases hl
    exact data_of_load ((k4 p (load_ok_lt hl) hne).trans hl)
  have hqlt4 : w.heap.length < w4.heap.length := by
    rw [l4]; exact Nat.lt_of_lt_of_le hqlt3 lp
  -- out->info = apop_data_copy(in.info)
  obtain ⟨wi, ip, ei, fi, li, ni, si⟩ :=
    apop_data_copy_ok (null_or_data_kept (fun p x hx => kd4 p x (kd3 p x hx)) hi)
  obtain ⟨w5, e5, l5, -, -, q5, f5⟩ := update_model_spec (w := wi) (q := w.heap.length)
    ((fi _ hqlt4).trans q4) (fun x => { x with info := ip })
  have k5 : ∀ r, r < w4.heap.length → r ≠ w.heap.length → w5.load r = w4.load r :=
    fun r hr hrq => by rw [f5 r hrq, fi r hr]
  have kd5 : ∀ p x, w4.data p = .ok x → w5.data p = .ok x := fun p x hx => by
    have hl := load_of_data hx
    have hne : p ≠ w.heap.length := fun e => by
      rw [e, q4] at hl
      cases hl
    exact data_of_load ((k5 p (load_ok_lt hl) hne).trans hl)
  have kd : ∀ p x, w.data p = .ok x → w5.data p = .ok x :=
    fun p x hx => kd5 p x (kd4 p x (kd3 p x hx))
  -- the copy of the parameters
  have cp : copy_of w w5 in_.parameters pp := by
    cases hpar : in_.parameters with
    | none => exact np hpar
    | some p =>
      obtain ⟨x, hx⟩ := null_or_data_spec hp p hpar
      obtain ⟨x1, hx1, hpp, hld, hlen⟩ := sp p hpar
      have hxx : x1 = x := by
        have := hx1.symm.trans (kd3 p x hx)
        injection this
      subst hxx
      have hplt := load_ok_lt (load_of_data hx1)
      have hne : w3.heap.length ≠ w.heap.length := (Nat.ne_of_lt hqlt3).symm
      have h4 : w4.data w3.heap.length = .ok x1 := data_of_load ((f4 _ hne).trans hld)
      have hfresh : ∀ y, w.data w3.heap.length ≠ .ok y := fun y hy =>
        Nat.lt_irrefl _ (load_ok_lt (load_of_data (kd3 _ y hy)))
      exact ⟨w3.heap.length, x1, hpp, (Nat.ne_of_lt hplt).symm, hfresh, hx, kd p x1 hx,
        kd5 _ _ h4⟩
  have ci : copy_of w w5 in_.info ip := by
    cases hinf : in_.info with
    | none => exact ni hinf
    | some p =>
      obtain ⟨x, hx⟩ := null_or_data_spec hi p hinf
      obtain ⟨x1, hx1, hpp, hld, hlen⟩ := si p hinf
      have hxx : x1 = x := by
        have := hx1.symm.trans (kd4 p x (kd3 p x hx))
        injection this
      subst hxx
      have hplt := load_ok_lt (load_of_data hx1)
      have hne : w4.heap.length ≠ w.heap.length := (Nat.ne_of_lt hqlt4).symm
      have hfresh : ∀ y, w.data w4.heap.length ≠ .ok y := fun y hy =>
        Nat.lt_irrefl _ (load_ok_lt (load_of_data (kd4 _ y (kd3 _ y hy))))
      exact ⟨w4.heap.length, x1, hpp, (Nat.ne_of_lt hplt).symm, hfresh, hx, kd p x1 hx,
        data_of_load ((f5 _ hne).trans hld)⟩
  refine ⟨w5, mo, st, pp, ip, ?_, model_of_load q5, hmo, kd, cp, ci, ?_⟩
  · simp only [apop_model_copy, ea, e1, e2, e3, ep, e4, ei, e5, bind, Except.bind, pure,
      Except.pure]
  · have h1 : null_or_data w5 pp = true := null_or_data_of_copy cp
    have h2 : null_or_data w5 ip = true := null_or_data_of_copy ci
    have h3 : (pp.isNone || decide (pp ≠ ip)) = true := by
      cases hpar : in_.parameters with
      | none => simp [np hpar]
      | some p =>
        obtain ⟨x1, -, hpp, -, hlen⟩ := sp p hpar
        cases hinf : in_.info with
        | none => simp [ni hinf, hpp]
        | some p2 =>
          obtain ⟨x2, -, hip, -, -⟩ := si p2 hinf
          have : w3.heap.length ≠ w4.heap.length := by
            rw [l4, hlen]; exact Nat.ne_of_lt (Nat.lt_succ_self _)
          simp [hpp, hip, this]
    simp only [owned_ok, h1, h2, h3, Bool.and_self]

theorem const_env_store_calls_ok (pv lv : R) : store_calls_ok (const_env pv lv) := by
  intro o i n w
  exact ⟨w, rfl, fun m hm => ⟨m.settings, hm⟩, fun _ _ h => h⟩

theorem apop_model_copy_fst {E : Env R} {in_ : apop_model} {w w1 : World R} {o : Option Ptr}
    (h : apop_model_copy E in_ w = .ok (o, w1)) : o = some w.heap.length := by
  simp only [apop_model_copy, bind, Except.bind, pure, Except.pure] at h
  repeat' split at h
  all_goals first
    | (cases h; done)
    | (cases h; rfl)

theorem prepared_copy_fst [Inhabited R] {E : Env R} {d : Option Ptr} {m : apop_model}
    {w w1 : World R} {o : Option Ptr}
    (h : prepared_copy E d m w = .ok (o, w1)) : o = some w.heap.length := by
  simp only [prepared_copy, bind, Except.bind, pure, Except.pure] at h
  split at h
  · cases h
  · rename_i c hc
    split at h
    · cases h
    · injection h with h
      injection h with h1 h2
      rw [← h1]
      exact @apop_model_copy_fst R E m w c.2 c.1 hc

theorem load_fresh (w : World R) : w.load w.heap.length = .error .invalid_pointer := by
  simp [World.load]

theorem resolve_size_fixed (w : World R) (data : Option Ptr) {b : Int} (h : b ≠ -1) :
    resolve_size w data b = .ok b := by
  simp [resolve_size, h]

theorem resolve_size_ok_of_sizes {w w5 : World R} {d : Option Ptr} {m : apop_model}
    (hk : ∀ p x, w.data p = .ok x → w5.data p = .ok x) (hs : sizes_ok w d m) (b : Int)
    (hb : b = m.dsize ∨ b = m.vbase ∨ b = m.m1base ∨ b = m.m2base) :
    ∃ v, resolve_size w d b = .ok v ∧ resolve_size w5 d b = .ok v := by
  rcases hs with ⟨h0, h1, h2, h3⟩ | ⟨dp, dd, x, hd, hdd, hx⟩
  · have : b ≠ -1 := by
      rcases hb with h | h | h | h <;> rw [h] <;> assumption
    exact ⟨b, resolve_size_fixed w d this, resolve_size_fixed w5 d this⟩
  · subst hd
    exact ⟨_, resolve_size_of_matrix hdd hx b, resolve_size_of_matrix (hk dp dd hdd) hx b⟩

theorem apop_data_free_frame {w w1 : World R} {d : Option Ptr} (h : apop_data_free d w = .ok w1)
    (p : Ptr) (hp : d ≠ some p) : w1.load p = w.load p := by
  cases d with
  | none =>
    injection h with h
    rw [h]
  | some a =>
    simp only [apop_data_free] at h
    split at h
    · rw [load_release h p, if_neg (fun e => hp (by rw [e]))]
    · cases h

theorem apop_data_free_model {w w1 : World R} {d : Option Ptr} {q : Ptr} {m : apop_model}
    (h : apop_data_free d w = .ok w1) (hm : w.model q = .ok m) : w1.model q = .ok m := by
  have hne : d ≠ some q := by
    intro e
    subst e
    simp only [apop_data_free] at h
    split at h
    · rename_i x hx
      have h1 := load_of_data hx
      rw [load_of_model hm] at h1
      cases h1
    · cases h
  exact model_of_load ((apop_data_free_frame h q hne).trans (load_of_model hm))

theorem free_settings_loop_idle (q : Ptr) : ∀ (n i : Nat) (w w1 : World R),
    free_settings_loop (fun _ _ v => .ok v) q n i w = .ok w1 → w1 = w := by
  intro n
  induction n with
  | zero =>
    intro i w w1 h
    cases h
  | succ n ih =>
    intro i w w1 h
    simp only [free_settings_loop] at h
    split at h
    · cases h
    · split at h
      · cases h
      · split at h
        · cases h
        · split at h
          · cases h
          · split at h
            · injection h with h
              exact h.symm
            · split at h
              · exact ih _ _ _ h
              · exact ih _ _ _ h

theorem apop_model_free_frame (w w1 : World R) (q : Ptr) (m : apop_model)
    (hm : w.model q = .ok m)
    (h : apop_model_free (fun _ _ v => .ok v) (some q) w = .ok w1) (p : Ptr)
    (hp : m.parameters ≠ some p) (hs : m.settings ≠ some p) (hq : p ≠ q) :
    w1.load p = w.load p := by
  simp only [apop_model_free, hm, bind, Except.bind, pure, Except.pure] at h
  split at h
  · cases h
  · rename_i wa ha
    have hma := apop_data_free_model ha hm
    simp only [hma] at h
    cases hset : m.settings with
    | none =>
      simp only [hset] at h
      rw [load_release h p, if_neg hq, apop_data_free_frame ha p hp]
    | some sp =>
      have hne : p ≠ sp := fun e => hs (by rw [hset, e])
      simp only [hset] at h
      split at h
      · cases h
      · rename_i wc hc
        have := free_settings_loop_idle _ _ _ _ _ hc
        subst this
        simp only [hma, hset] at h
        split at h
        · cases h
        · rename_i wd hd
          rw [load_release h p, if_neg hq, load_release hd p, if_neg hne,
            apop_data_free_frame ha p hp]

end lemmas

/-! ## The claims -/

section claims
variable {R : Type}

/-- C1, as stated, fails: on `wide_world example_model 4294967301`, whose model has
`vbase = -1` and whose data set has 2^32 + 5 columns, `apop_model_clear` converts the
column count to `int` and allocates a parameter vector of 5 elements, not of
2^32 + 5. -/
theorem apop_model_clear_wraps_columns :
    (wide_world example_model 4294967301).data 1 = .ok (wide_data 4294967301) ∧
    (wide_data 4294967301).matrix.map (fun x => x.size2) = some 4294967301 ∧
    ∃ w1 m1 pp params,
      apop_model_clear (some 1) (some 0) (wide_world example_model 4294967301) =
        .ok (some 0, w1) ∧
      w1.model 0 = .ok m1 ∧ m1.vbase = -1 ∧ m1.parameters = some pp ∧
      w1.data pp = .ok params ∧ params = apop_data_alloc 5 0 0 ∧
      params.vector.map List.length = some 5 :=
  ⟨rfl, rfl, _, _, _, _, rfl, rfl, rfl, rfl, rfl, rfl, rfl⟩

/-- C1, amended: for every model and every data set with a matrix region of `c`
columns, `apop_model_clear` allocates `parameters` with the dimensions
`apop_data_alloc(vsize, msize1, msize2)`, where each size is `c` converted to `int`
when its base is `-1` and the base otherwise; for `c` within the range of `int`,
`c ≤ 2^31 - 1`, the converted size is `c`.  With the fixed policy `vbase = 1,
m1base = 0, m2base = 0` the parameter vector has length 1 whatever the data set; with
`vbase = -1` and five columns it has length 5. -/
theorem apop_model_clear_sizes [Inhabited R] (w : World R) (q dp : Ptr) (m : apop_model)
    (d : apop_data R) (x : gsl_matrix R)
    (hm : w.model q = .ok m) (hown : owned_ok w m = true)
    (hd : w.data dp = .ok d) (hx : d.matrix = some x) :
    ∃ w1 pp params, apop_model_clear (some dp) (some q) w = .ok (some q, w1) ∧
      (∃ m1, w1.model q = .ok m1 ∧ m1.parameters = some pp) ∧
      w1.data pp = .ok params ∧
      params = apop_data_alloc (if m.vbase = -1 then to_int x.size2 else m.vbase)
        (if m.m1base = -1 then to_int x.size2 else m.m1base)
        (if m.m2base = -1 then to_int x.size2 else m.m2base) ∧
      (x.size2 < 2147483648 →
        params = apop_data_alloc (if m.vbase = -1 then (x.size2 : Int) else m.vbase)
          (if m.m1base = -1 then (x.size2 : Int) else m.m1base)
          (if m.m2base = -1 then (x.size2 : Int) else m.m2base)) ∧
      (m.vbase = 1 → m.m1base = 0 → m.m2base = 0 →
        params.vector.map List.length = some 1 ∧ params.matrix = none) ∧
      (m.vbase = -1 → x.size2 = 5 → params.vector.map List.length = some 5) := by
  obtain ⟨w1, e, hq, hpp, -, -, -, -, -⟩ := apop_model_clear_ok hm hown
    (resolve_size_of_matrix hd hx m.dsize) (resolve_size_of_matrix hd hx m.vbase)
    (resolve_size_of_matrix hd hx m.m1base) (resolve_size_of_matrix hd hx m.m2base)
  refine ⟨w1, w.heap.length, _, e, ⟨_, hq, rfl⟩, hpp, rfl, ?_, ?_, ?_⟩
  · intro hc
    rw [to_int_of_lt hc]
  · intro h1 h2 h3
    simp [h1, h2, h3, apop_data_alloc]
  · intro h1 h2
    simp [h1, h2, apop_data_alloc, to_int]

/-- The run of the amended C1 on `example_world`: the model at address 0 has
`vbase = -1`, the data set at address 1 has five columns. -/
theorem apop_model_clear_sizes_witness :
    example_world.model 0 = .ok example_model ∧ owned_ok example_world example_model = true ∧
    example_world.data 1 = .ok example_data ∧
    ∃ w1 pp params, apop_model_clear (some 1) (some 0) example_world = .ok (some 0, w1) ∧
      (∃ m1, w1.model 0 = .ok m1 ∧ m1.parameters = some pp) ∧
      w1.data pp = .ok params ∧
      params = apop_data_alloc
        (if example_model.vbase = -1 then to_int 5 else example_model.vbase)
        (if example_model.m1base = -1 then to_int 5 else example_model.m1base)
        (if example_model.m2base = -1 then to_int 5 else example_model.m2base) ∧
      ((5 : Nat) < 2147483648 →
        params = apop_data_alloc
          (if example_model.vbase = -1 then ((5 : Nat) : Int) else example_model.vbase)
          (if example_model.m1base = -1 then ((5 : Nat) : Int) else example_model.m1base)
          (if example_model.m2base = -1 then ((5 : Nat) : Int) else example_model.m2base)) ∧
      (example_model.vbase = 1 → example_model.m1base = 0 → example_model.m2base = 0 →
        params.vector.map List.length = some 1 ∧ params.matrix = none) ∧
      (example_model.vbase = -1 → (5 : Nat) = 5 →
        params.vector.map List.length = some 5) :=
  ⟨rfl, rfl, rfl,
    apop_model_clear_sizes example_world 0 1 example_model example_data
      { size1 := 2, size2 := 5, data := List.replicate 10 0 } rfl rfl rfl rfl⟩

/-- C2, as stated, fails: on `example_world`, whose model has `vbase = -1`,
`apop_model_clear` with a null data set stops on a read through `NULL`; it does not
reject the call with an `InvalidArgument` error. -/
theorem apop_model_clear_null_data_not_rejected :
    apop_model_clear none (some 0) example_world = .error .null_deref ∧
    ¬ ∃ msg, apop_model_clear none (some 0) example_world = .error (.invalid_argument msg) :=
  ⟨rfl, fun ⟨_, h⟩ => by cases h⟩

/-- C2, amended: for every model in which at least one of `dsize`, `vbase`, `m1base`,
`m2base` is `-1`, `apop_model_clear` called with a null data set reads
`data->matrix->size2` through the null pointer.  The function is the statements that
resolve the sizes followed by those that release and replace `parameters` and `info`
and set the back-reference; the first ones stop on that read in a heap equal to the
one of the call, so nothing was released or replaced, and `parameters`, `info` and the
back-reference of the model are as they were.  The function returns nothing. -/
theorem apop_model_clear_null_data_faults [Inhabited R] (w : World R) (q : Ptr)
    (m : apop_model) (hm : w.model q = .ok m)
    (hs : m.dsize = -1 ∨ m.vbase = -1 ∨ m.m1base = -1 ∨ m.m2base = -1) :
    (∀ data, apop_model_clear data (some q) w =
      (clear_sizes data q m w).2.bind
        (fun s => clear_replace data q m s (clear_sizes data q m w).1)) ∧
    clear_sizes none q m w = (w, .error .null_deref) ∧
    apop_model_clear none (some q) w = .error .null_deref := by
  have key : clear_sizes none q m w = (w, .error .null_deref) := by
    have hst : w.store q (.model { m with dsize := m.dsize }) = w := store_same hm
    simp only [clear_sizes, resolve_size_store hm, resolve_size_null, bind, Except.bind]
    by_cases h0 : m.dsize = -1
    · simp only [if_pos h0]
    · by_cases h1 : m.vbase = -1
      · simp only [if_neg h0, hst, if_pos h1]
      · by_cases h2 : m.m1base = -1
        · simp only [if_neg h0, hst, if_neg h1, if_pos h2]
        · have h3 : m.m2base = -1 := by tauto
          simp only [if_neg h0, hst, if_neg h1, if_neg h2, if_pos h3]
  refine ⟨fun data => ?_, key, ?_⟩
  · simp only [apop_model_clear, deref, hm, bind, Except.bind]
  · simp only [apop_model_clear, deref, hm, key, bind, Except.bind]

/-- The run of the amended C2 on `example_world`. -/
theorem apop_model_clear_null_data_faults_witness :
    example_world.model 0 = .ok example_model ∧
    (example_model.dsize = -1 ∨ example_model.vbase = -1 ∨ example_model.m1base = -1 ∨
      example_model.m2base = -1) ∧
    (∀ data, apop_model_clear data (some 0) example_world =
      (clear_sizes data 0 example_model example_world).2.bind
        (fun s => clear_replace data 0 example_model s
          (clear_sizes data 0 example_model example_world).1)) ∧
    clear_sizes none 0 example_model example_world = (example_world, .error .null_deref) ∧
    apop_model_clear none (some 0) example_world = .error .null_deref :=
  ⟨rfl, by decide,
    apop_model_clear_null_data_faults example_world 0 example_model rfl (by decide)⟩

/-- C3, as stated, fails.  After `apop_model_clear` on `example_world`, with a data
set of five columns, the `vbase` field of the model is still the sentinel `-1`.  And
on a heap whose model has `vbase = 1` and `dsize = -1` and whose data set has 2^32 - 1
columns, the column count converted to `int` is `-1`, so the `dsize` field is `-1`
again. -/
theorem apop_model_clear_keeps_sentinel :
    (∃ w1 m1, apop_model_clear (some 1) (some 0) example_world = .ok (some 0, w1) ∧
      w1.model 0 = .ok m1 ∧ m1.vbase = -1 ∧ ¬ (0 ≤ m1.vbase)) ∧
    (∃ w1 m1, apop_model_clear (some 1) (some 0)
        (wide_world { example_model with vbase := 1, dsize := -1 } 4294967295) =
        .ok (some 0, w1) ∧
      w1.model 0 = .ok m1 ∧ m1.dsize = -1) :=
  ⟨⟨_, _, rfl, rfl, rfl, by decide⟩, ⟨_, _, rfl, rfl, rfl⟩⟩

/-- C3, amended: for every model and every data set with a matrix region of `c`
columns, `c` within the range of `int`, after `apop_model_clear` the model's
`parameters` is non-null and sized according to the size policy, and `dsize` holds `c`
when it was `-1` and its former value otherwise, so it is no longer the sentinel and is
`≥ 0` when it was `≥ -1`; `vbase`, `m1base` and `m2base` are left as they were. -/
theorem apop_model_clear_invariant [Inhabited R] (w : World R) (q dp : Ptr) (m : apop_model)
    (d : apop_data R) (x : gsl_matrix R)
    (hm : w.model q = .ok m) (hown : owned_ok w m = true)
    (hd : w.data dp = .ok d) (hx : d.matrix = some x) (hc : x.size2 < 2147483648) :
    ∃ w1 m1 pp params, apop_model_clear (some dp) (some q) w = .ok (some q, w1) ∧
      w1.model q = .ok m1 ∧ m1.parameters = some pp ∧ w1.data pp = .ok params ∧
      params = apop_data_alloc (if m.vbase = -1 then (x.size2 : Int) else m.vbase)
        (if m.m1base = -1 then (x.size2 : Int) else m.m1base)
        (if m.m2base = -1 then (x.size2 : Int) else m.m2base) ∧
      m1.dsize = (if m.dsize = -1 then (x.size2 : Int) else m.dsize) ∧
      m1.dsize ≠ -1 ∧ (-1 ≤ m.dsize → 0 ≤ m1.dsize) ∧
      m1.vbase = m.vbase ∧ m1.m1base = m.m1base ∧ m1.m2base = m.m2base := by
  obtain ⟨w1, e, hq, hpp, -, -, -, -, -⟩ := apop_model_clear_ok hm hown
    (resolve_size_of_matrix hd hx m.dsize) (resolve_size_of_matrix hd hx m.vbase)
    (resolve_size_of_matrix hd hx m.m1base) (resolve_size_of_matrix hd hx m.m2base)
  rw [to_int_of_lt hc] at hq hpp
  refine ⟨w1, _, w.heap.length, _, e, hq, rfl, hpp, rfl, rfl, ?_, ?_, rfl, rfl, rfl⟩
  · simp only
    split
    · have := Int.ofNat_nonneg x.size2
      omega
    · assumption
  · intro h
    simp only
    split
    · exact Int.ofNat_nonneg _
    · omega

/-- The run of the amended C3 on `example_world`. -/
theorem apop_model_clear_invariant_witness :
    example_world.model 0 = .ok example_model ∧ owned_ok example_world example_model = true ∧
    example_world.data 1 = .ok example_data ∧ (5 : Nat) < 2147483648 ∧
    ∃ w1 m1 pp params, apop_model_clear (some 1) (some 0) example_world = .ok (some 0, w1) ∧
      w1.model 0 = .ok m1 ∧ m1.parameters = some pp ∧ w1.data pp = .ok params ∧
      params = apop_data_alloc
        (if example_model.vbase = -1 then ((5 : Nat) : Int) else example_model.vbase)
        (if example_model.m1base = -1 then ((5 : Nat) : Int) else example_model.m1base)
        (if example_model.m2base = -1 then ((5 : Nat) : Int) else example_model.m2base) ∧
      m1.dsize = (if example_model.dsize = -1 then ((5 : Nat) : Int) else example_model.dsize) ∧
      m1.dsize ≠ -1 ∧ (-1 ≤ example_model.dsize → 0 ≤ m1.dsize) ∧
      m1.vbase = example_model.vbase ∧ m1.m1base = example_model.m1base ∧
      m1.m2base = example_model.m2base :=
  ⟨rfl, rfl, rfl, by decide,
    apop_model_clear_invariant example_world 0 1 example_model example_data
      { size1 := 2, size2 := 5, data := List.replicate 10 0 } rfl rfl rfl rfl (by decide)⟩

/-- C4: for every model `in_` whose pointers are valid, `apop_model_copy` returns a
descriptor whose `parameters` and `info` hold the same elements as the original's in
separately allocated containers, so that overwriting the copy's container leaves the
original's as it was, and the other way round; every field of the copy other than
`settings`, `more`, `parameters` and `info`, so every scalar field and every operation
slot, equals the original's. -/
theorem apop_model_copy_independent {E : Env R} (hE : store_calls_ok E) (in_ : apop_model)
    (w : World R) (hp : null_or_data w in_.parameters = true)
    (hi : null_or_data w in_.info = true) (hmore : more_ok w in_) (hset : settings_ok w in_) :
    ∃ q w5 m1, apop_model_copy E in_ w = .ok (some q, w5) ∧ w5.model q = .ok m1 ∧
      m1 = { in_ with settings := m1.settings, more := m1.more, parameters := m1.parameters,
                      info := m1.info } ∧
      copy_of w w5 in_.parameters m1.parameters ∧ copy_of w w5 in_.info m1.info ∧
      (∀ p p1 y, in_.parameters = some p → m1.parameters = some p1 →
        (w5.store p1 (.data y)).data p = w5.data p ∧
        (w5.store p (.data y)).data p1 = w5.data p1) ∧
      (∀ p p1 y, in_.info = some p → m1.info = some p1 →
        (w5.store p1 (.data y)).data p = w5.data p ∧
        (w5.store p (.data y)).data p1 = w5.data p1) := by
  obtain ⟨w5, mo, st, pp, ip, e, hq, -, -, cp, ci, -⟩ :=
    apop_model_copy_ok hE in_ w hp hi hmore hset
  have key : ∀ (a b : Option Ptr), copy_of w w5 a b → ∀ p p1 (y : apop_data R), a = some p →
      b = some p1 → (w5.store p1 (.data y)).data p = w5.data p ∧
        (w5.store p (.data y)).data p1 = w5.data p1 := by
    intro a b hc p p1 y ha hb
    subst ha
    obtain ⟨p2, x, hb2, hne, -, -, -, -⟩ := hc
    have : p2 = p1 := by
      rw [hb] at hb2
      injection hb2 with h
      exact h.symm
    subst this
    exact ⟨by simp [World.data, load_store_of_ne w5 _ (Ne.symm hne)],
      by simp [World.data, load_store_of_ne w5 _ hne]⟩
  exact ⟨w.heap.length, w5, _, e, hq, rfl, cp, ci, key _ _ cp, key _ _ ci⟩

/-- The run of C4 on `estimated_world`, whose model has parameters and info. -/
theorem apop_model_copy_independent_witness :
    null_or_data estimated_world estimated_model.parameters = true ∧
    null_or_data estimated_world estimated_model.info = true ∧
    ∃ q w5 m1, apop_model_copy (const_env (0 : Int) 0) estimated_model estimated_world =
        .ok (some q, w5) ∧ w5.model q = .ok m1 ∧
      m1 = { estimated_model with settings := m1.settings, more := m1.more,
                                  parameters := m1.parameters, info := m1.info } ∧
      copy_of estimated_world w5 estimated_model.parameters m1.parameters ∧
      copy_of estimated_world w5 estimated_model.info m1.info ∧
      (∀ p p1 y, estimated_model.parameters = some p → m1.parameters = some p1 →
        (w5.store p1 (.data y)).data p = w5.data p ∧
        (w5.store p (.data y)).data p1 = w5.data p1) ∧
      (∀ p p1 y, estimated_model.info = some p → m1.info = some p1 →
        (w5.store p1 (.data y)).data p = w5.data p ∧
        (w5.store p (.data y)).data p1 = w5.data p1) :=
  ⟨rfl, rfl,
    apop_model_copy_independent (const_env_store_calls_ok 0 0) estimated_model estimated_world
      rfl rfl (Or.inl rfl) (Or.inl rfl)⟩

/-- C5, the failing run: on `cdf_world` the copy hook `apop_cdf_settings_copy` returns
a group at a new address `c` whose stream is the stream of the original, address 0;
freeing the original model then runs `apop_cdf_settings_free`, which releases that
stream, and the copy is left holding a released stream. -/
theorem apop_cdf_settings_copy_shares_rng :
    ∃ c w1 w2 s,
      apop_cdf_settings_copy (some 1) cdf_world = .ok (some c, w1) ∧
      apop_model_free (call_free (const_env 0 0) 1) (some 3) w1 = .ok w2 ∧
      w2.cdf c = .ok s ∧ s.rng = some 0 ∧ cdf_world.load 0 = .ok (.rng 7) ∧
      w2.load 0 = .error .invalid_pointer :=
  ⟨4, _, _, _, rfl, rfl, rfl, rfl, rfl, rfl⟩

/-- C6: `apop_model_free` on a null model does nothing.  On a model without settings
it releases `parameters` and then the descriptor.  On a model whose settings array is
`pre ++ s :: post`, with `s` the first entry with an empty name and fewer than 2^31
entries before it, and whose hooks leave the array and the descriptor alone, it
releases `parameters`, then calls the `free` hook of each entry of `pre` that has one,
once, in the order of the array and with the group of that entry, calls nothing for
`s` and `post`, then releases the array and the descriptor.  It releases nothing else:
with hooks that leave the heap alone, every cell other than `parameters`, the array
and the descriptor, so `info` and the data set, is as before. -/
theorem apop_model_free_spec
    (call : HookFn → Option Ptr → World R → Except Fault (World R)) (w : World R) :
    apop_model_free call none w = .ok w ∧
    (∀ q m, w.model q = .ok m →
      (m.settings = none →
        apop_model_free call (some q) w =
          (apop_data_free m.parameters w).bind (fun w1 => w1.release q)) ∧
      (∀ sp pre s post, m.settings = some sp → s.name.length = 0 →
        (∀ e ∈ pre, e.name.length ≠ 0) → pre.length < 2147483648 →
        (∀ w1, apop_data_free m.parameters w = .ok w1 →
          w1.settings sp = .ok (pre ++ s :: post) →
          hooks_keep call q sp (hook_calls pre) w1 →
          apop_model_free call (some q) w =
            (run_hooks call (hook_calls pre) w1).bind (fun w2 =>
              (w2.release sp).bind (fun w3 => w3.release q))))) ∧
    (∀ q m w1, w.model q = .ok m →
      apop_model_free (fun _ _ v => .ok v) (some q) w = .ok w1 →
      ∀ p, m.parameters ≠ some p → m.settings ≠ some p → p ≠ q → w1.load p = w.load p) := by
  refine ⟨rfl, fun q m hm => ⟨fun hs => ?_, fun sp pre s post hs hn hpre hlen w1 h1 h2 hk => ?_⟩,
    fun q m w1 hm h p hp hs hq => apop_model_free_frame w w1 q m hm h p hp hs hq⟩
  · cases h : apop_data_free m.parameters w with
    | error x => simp only [apop_model_free, hm, h, bind, Except.bind]
    | ok w1 =>
      simp only [apop_model_free, hm, h, apop_data_free_model h hm, hs, bind, Except.bind,
        pure, Except.pure]
  · have hma := apop_data_free_model h1 hm
    have hl : free_settings_loop call q 2147483648 0 w1 = run_hooks call (hook_calls pre) w1 :=
      free_settings_loop_spec call q sp m hs s post hn pre [] 2147483648 w1 hpre hlen hma h2 hk
    simp only [apop_model_free, hm, h1, hma, hs, hl, bind, Except.bind, pure, Except.pure]
    cases hr : run_hooks call (hook_calls pre) w1 with
    | error x => rfl
    | ok w2 =>
      have hm2 : w2.model q = .ok m := (run_hooks_keep call q sp _ _ _ hk hr).1.trans hma
      simp only [hm2, hs]

/-- The run of C6 on `cdf_world`: freeing the model at address 3 calls
`apop_cdf_settings_free` once, with the group at address 1; the hook releases the
group and its stream and leaves the array at address 2 and the descriptor alone. -/
theorem apop_model_free_spec_witness :
    cdf_world.model 3 = .ok { example_model with settings := some 2 } ∧
    hooks_keep (call_free (const_env 0 0) 1) 3 2 (hook_calls [cdf_entry]) cdf_world ∧
    apop_model_free (call_free (const_env 0 0) 1) (some 3) cdf_world =
      (run_hooks (call_free (const_env 0 0) 1) [(.apop_cdf_settings_free, some 1)]
        cdf_world).bind (fun w2 => (w2.release 2).bind (fun w3 => w3.release 3)) ∧
    (apop_model_free (call_free (const_env 0 0) 1) (some 3) cdf_world).toOption.map
        (fun w1 => w1.heap) = some [none, none, none, none] :=
  ⟨rfl,
    fun w1 h => by
      obtain rfl := Except.ok.inj h
      exact ⟨rfl, rfl, trivial⟩,
    ((apop_model_free_spec (call_free (const_env 0 0) 1) cdf_world).2.1 3 _ rfl).2 2
      [cdf_entry] end_entry [] rfl rfl (by decide) (by decide) cdf_world rfl rfl
      (fun w1 h => by
        obtain rfl := Except.ok.inj h
        exact ⟨rfl, rfl, trivial⟩),
    rfl⟩

/-- C7, as stated, fails: with a null data set and `example_model`, which has
`vbase = -1` and no `prep`, `apop_estimate` stops on a read through `NULL` while it
prepares the copy; it returns nothing and calls neither `estimate` nor the optimizer. -/
theorem apop_estimate_null_data_faults :
    apop_estimate (const_env (0 : Int) 0) none example_model example_world =
      .error .null_deref := rfl

/-- C7, amended: for every data set `d`, possibly null, and every model `m` with
valid pointers, `apop_estimate` copies `m` to a newly allocated address and calls
`apop_prep(d, copy)`; when that call does not return, neither does `apop_estimate`,
and when it returns the result is exactly the native `estimate(d, prepared copy)` when
the prepared copy has an `estimate` slot, without the optimizer, and exactly one call
`apop_maximum_likelihood(d, prepared copy)` when it has none.  With the default
preparation, when `d` has a matrix region or no size field is `-1`, the preparation
is `apop_model_clear(d, copy)` and it returns: the prepared copy has the `estimate`
slot of `m`, its back-reference is `d`, its `parameters` are newly allocated with the
sizes resolved from `vbase`, `m1base` and `m2base`, and every data set of the caller
is as it was. -/
theorem apop_estimate_dispatch [Inhabited R] {E : Env R} (hE : store_calls_ok E)
    (d : Option Ptr) (m : apop_model) (w : World R)
    (hp : null_or_data w m.parameters = true) (hi : null_or_data w m.info = true)
    (hmore : more_ok w m) (hset : settings_ok w m) :
    (∃ w1, apop_model_copy E m w = .ok (some w.heap.length, w1) ∧
      w.load w.heap.length = .error .invalid_pointer ∧
      (∀ e, apop_prep E d (some w.heap.length) w1 = .error e →
        apop_estimate E d m w = .error e) ∧
      (∀ w2 m2, apop_prep E d (some w.heap.length) w1 = .ok w2 →
        w2.model w.heap.length = .ok m2 →
        apop_estimate E d m w =
          match m2.estimate with
          | some f => E.estimate f d (some w.heap.length) w2
          | none => E.apop_maximum_likelihood d (some w.heap.length) w2)) ∧
    (m.prep = none → sizes_ok w d m →
      ∃ w1 w2 m2 pp params vs ms1 ms2,
        apop_model_copy E m w = .ok (some w.heap.length, w1) ∧
        apop_model_clear d (some w.heap.length) w1 = .ok (some w.heap.length, w2) ∧
        apop_prep E d (some w.heap.length) w1 = .ok w2 ∧
        w2.model w.heap.length = .ok m2 ∧ m2.estimate = m.estimate ∧ m2.data = d ∧
        m2.parameters = some pp ∧ w2.data pp = .ok params ∧
        resolve_size w d m.vbase = .ok vs ∧ resolve_size w d m.m1base = .ok ms1 ∧
        resolve_size w d m.m2base = .ok ms2 ∧ params = apop_data_alloc vs ms1 ms2 ∧
        (∀ p x, w.data p = .ok x → w2.data p = .ok x) ∧
        apop_estimate E d m w =
          match m.estimate with
          | some f => E.estimate f d (some w.heap.length) w2
          | none => E.apop_maximum_likelihood d (some w.heap.length) w2) := by
  obtain ⟨w5, mo, st, pp, ip, e, hq, -, kd, cp, ci, hown⟩ :=
    apop_model_copy_ok hE m w hp hi hmore hset
  constructor
  · refine ⟨w5, e, load_fresh w, fun x hx => ?_, fun w2 m2 h2 hm2 => ?_⟩
    · simp only [apop_estimate, prepared_copy, e, hx, bind, Except.bind]
    · simp only [apop_estimate, prepared_copy, e, h2, deref, hm2, bind, Except.bind, pure,
        Except.pure]
  · intro hprep hs
    obtain ⟨ds, -, hds⟩ := resolve_size_ok_of_sizes kd hs m.dsize (Or.inl rfl)
    obtain ⟨vs, hvs0, hvs⟩ := resolve_size_ok_of_sizes kd hs m.vbase (Or.inr (Or.inl rfl))
    obtain ⟨m1s, hm10, hm1⟩ :=
      resolve_size_ok_of_sizes kd hs m.m1base (Or.inr (Or.inr (Or.inl rfl)))
    obtain ⟨m2s, hm20, hm2⟩ :=
      resolve_size_ok_of_sizes kd hs m.m2base (Or.inr (Or.inr (Or.inr rfl)))
    obtain ⟨w6, e6, hq6, hpp6, -, l6, -, -, f6⟩ := apop_model_clear_ok hq hown hds hvs hm1 hm2
    have hprep6 : apop_prep E d (some w.heap.length) w5 = .ok w6 := by
      simp only [apop_prep, deref, hq, hprep, e6, bind, Except.bind, pure, Except.pure]
    refine ⟨w5, w6, _, _, _, vs, m1s, m2s, e, e6, hprep6, hq6, rfl, rfl, rfl, hpp6, hvs0, hm10,
      hm20, rfl, fun p x hx => ?_, ?_⟩
    · have h5 := load_of_data (kd p x hx)
      have hne : p ≠ w.heap.length := fun h => by
        rw [h, load_of_model hq] at h5
        cases h5
      have fresh : ∀ (a b : Option Ptr), copy_of w w5 a b → b ≠ some p := by
        intro a b hc hb
        cases a with
        | none =>
          have : b = none := hc
          rw [this] at hb
          cases hb
        | some a1 =>
          obtain ⟨p1, x1, hb1, -, hf, -, -, -⟩ := hc
          rw [hb] at hb1
          injection hb1 with hb1
          exact hf x (hb1 ▸ hx)
      exact data_of_load ((f6 p (load_ok_lt h5) hne (fresh _ _ cp) (fresh _ _ ci)).trans h5)
    · simp only [apop_estimate, prepared_copy, e, hprep6, deref, hq6, bind, Except.bind, pure,
        Except.pure]

/-- The run of the amended C7 on `example_world` with the data set at address 1: the
model has no `estimate`, and `apop_estimate` is the call of the optimizer on the
prepared copy at the new address 2, whose parameter vector has the five elements that
the five columns of the data set ask for. -/
theorem apop_estimate_dispatch_witness :
    null_or_data example_world example_model.parameters = true ∧
    null_or_data example_world example_model.info = true ∧
    ∃ w1 w2 m2 pp params vs ms1 ms2,
      apop_model_copy (const_env (0 : Int) 0) example_model example_world =
        .ok (some 2, w1) ∧
      apop_model_clear (some 1) (some 2) w1 = .ok (some 2, w2) ∧
      apop_prep (const_env (0 : Int) 0) (some 1) (some 2) w1 = .ok w2 ∧
      w2.model 2 = .ok m2 ∧ m2.estimate = example_model.estimate ∧ m2.data = some 1 ∧
      m2.parameters = some pp ∧ w2.data pp = .ok params ∧
      resolve_size example_world (some 1) example_model.vbase = .ok vs ∧
      resolve_size example_world (some 1) example_model.m1base = .ok ms1 ∧
      resolve_size example_world (some 1) example_model.m2base = .ok ms2 ∧
      params = apop_data_alloc vs ms1 ms2 ∧
      (∀ p x, example_world.data p = .ok x → w2.data p = .ok x) ∧
      apop_estimate (const_env (0 : Int) 0) (some 1) example_model example_world =
        match example_model.estimate with
        | some f => (const_env (0 : Int) 0).estimate f (some 1) (some 2) w2
        | none => (const_env (0 : Int) 0).apop_maximum_likelihood (some 1) (some 2) w2 :=
  ⟨rfl, rfl,
    (apop_estimate_dispatch (const_env_store_calls_ok (0 : Int) 0) (some 1) example_model
      example_world rfl rfl (Or.inl rfl) (Or.inl rfl)).2 rfl
      (Or.inr ⟨1, example_data, _, rfl, rfl, rfl⟩)⟩

/-- C8: for every non-null model and every data set, `apop_p` is the native `p` when
the `p` slot is present, whether or not `log_likelihood` is, and `exp` of the native
`log_likelihood` when only that slot is present; `apop_log_likelihood` is the native
`log_likelihood` when that slot is present and `log` of the native `p` when only `p`
is present. -/
theorem apop_p_log_likelihood_native_first [Zero R] (exp log : R → R) (E : Env R)
    (d : Option Ptr) (q : Ptr) (m : apop_model) (w : World R) (hm : w.model q = .ok m) :
    (∀ f, m.p = some f → apop_p exp E d (some q) w = .ok (E.p f d (some q) w, w)) ∧
    (∀ g, m.p = none → m.log_likelihood = some g →
      apop_p exp E d (some q) w = .ok (exp (E.log_likelihood g d (some q) w), w)) ∧
    (∀ g, m.log_likelihood = some g →
      apop_log_likelihood log E d (some q) w = .ok (E.log_likelihood g d (some q) w, w)) ∧
    (∀ f, m.log_likelihood = none → m.p = some f →
      apop_log_likelihood log E d (some q) w = .ok (log (E.p f d (some q) w), w)) := by
  refine ⟨fun f h => ?_, fun g h1 h2 => ?_, fun g h => ?_, fun f h1 h2 => ?_⟩ <;>
    simp [apop_p, apop_log_likelihood, Nullcheck_m, hm, bind, Except.bind, pure, Except.pure, *]

/-- The run of C8 on `p_only_world`: `apop_p` is the native `p`, here 1, and
`apop_log_likelihood` is its logarithm. -/
theorem apop_p_log_likelihood_native_first_witness :
    p_only_world.model 0 = .ok p_only_model ∧
    apop_p Real.exp (const_env 1 0) none (some 0) p_only_world = .ok (1, p_only_world) ∧
    apop_log_likelihood Real.log (const_env 1 0) none (some 0) p_only_world =
      .ok (Real.log 1, p_only_world) :=
  ⟨rfl,
    (apop_p_log_likelihood_native_first Real.exp Real.log (const_env 1 0) none 0 p_only_model
      p_only_world rfl).1 7 rfl,
    (apop_p_log_likelihood_native_first Real.exp Real.log (const_env 1 0) none 0 p_only_model
      p_only_world rfl).2.2.2 7 rfl rfl⟩

/-- C9: for every non-null model and every data set, `apop_p` and
`apop_log_likelihood` return; they return 0 with an `UnsupportedOperation` error
added to the error channel exactly when the model has neither a `p` nor a
`log_likelihood` slot, and in that case what they return does not depend on what any
operation would do: none is called. -/
theorem apop_p_log_likelihood_unsupported [Zero R] (exp log : R → R) (E : Env R)
    (d : Option Ptr) (q : Ptr) (m : apop_model) (w : World R) (hm : w.model q = .ok m) :
    (∃ r w1, apop_p exp E d (some q) w = .ok (r, w1) ∧
      ((r = 0 ∧ w1.errors = w.errors ++ [(ErrorKind.UnsupportedOperation, neither_msg)]) ↔
        (m.p = none ∧ m.log_likelihood = none))) ∧
    (∃ r w1, apop_log_likelihood log E d (some q) w = .ok (r, w1) ∧
      ((r = 0 ∧ w1.errors = w.errors ++ [(ErrorKind.UnsupportedOperation, neither_msg)]) ↔
        (m.p = none ∧ m.log_likelihood = none))) ∧
    (m.p = none → m.log_likelihood = none → ∀ E1 : Env R,
      apop_p exp E1 d (some q) w = apop_p exp E d (some q) w ∧
      apop_log_likelihood log E1 d (some q) w = apop_log_likelihood log E d (some q) w) := by
  have hne := errors_ne_append w.errors (ErrorKind.UnsupportedOperation, neither_msg)
  refine ⟨?_, ?_, ?_⟩
  · cases hp : m.p <;> cases hl : m.log_likelihood <;>
      simp only [apop_p, Nullcheck_m, hm, bind, Except.bind, pure, Except.pure, hp, hl] <;>
      refine ⟨_, _, rfl, ?_⟩ <;> simp [apop_error, hne]
  · cases hp : m.p <;> cases hl : m.log_likelihood <;>
      simp only [apop_log_likelihood, Nullcheck_m, hm, bind, Except.bind, pure, Except.pure,
        hp, hl] <;>
      refine ⟨_, _, rfl, ?_⟩ <;> simp [apop_error, hne]
  · intro hp hl E1
    simp [apop_p, apop_log_likelihood, Nullcheck_m, hm, bind, Except.bind, pure, Except.pure,
      hp, hl]

/-- The run of C9 on `example_world`, whose model has neither slot: whatever the
environment, `apop_p` is what it is under `const_env 0 0`. -/
theorem apop_p_log_likelihood_unsupported_witness :
    example_world.model 0 = .ok example_model ∧
    ∀ E1 : Env Int,
      apop_p id E1 none (some 0) example_world =
        apop_p id (const_env 0 0) none (some 0) example_world ∧
      apop_log_likelihood id E1 none (some 0) example_world =
        apop_log_likelihood id (const_env 0 0) none (some 0) example_world :=
  ⟨rfl,
    (apop_p_log_likelihood_unsupported id id (const_env 0 0) none 0 example_model
      example_world rfl).2.2 rfl rfl⟩

/-- C10, as stated, fails: on `ll_only_world`, whose model supplies only
`log_likelihood`, with the native log likelihood 1000, `apop_p` is `exp(1000)`, which
is `+inf` for a `double`, a positive number, and `apop_log_likelihood` is 1000, while
`log(apop_p)` is `log(+inf) = +inf`. -/
theorem apop_log_likelihood_not_log_p :
    apop_p libm_exp (const_env (some (.fin 1)) (some (.fin 1000))) none (some 0)
        ll_only_world = .ok (some .pinf, ll_only_world) ∧
    double_gt .pinf (.fin 0) = true ∧
    apop_log_likelihood libm_log (const_env (some (.fin 1)) (some (.fin 1000))) none (some 0)
        ll_only_world = .ok (some (.fin 1000), ll_only_world) ∧
    libm_log (some .pinf) = some .pinf ∧
    (some (double.fin 1000) : libm_double) ≠ libm_log (some .pinf) :=
  ⟨rfl, rfl, rfl, rfl, by decide⟩

/-- C10, amended: for every model that supplies only `log_likelihood`, with the native
value `L`, `apop_log_likelihood(d, m)` is `L` and `apop_p(d, m)` is
`exp(apop_log_likelihood(d, m))`; the other equation,
`apop_log_likelihood(d, m) = log(apop_p(d, m))`, holds exactly when `log(exp(L)) = L`
for the `exp` and `log` of the C library.  For every model that supplies only `p`,
with the native value `P`, `apop_p(d, m)` is `P` and `apop_log_likelihood(d, m)` is
`log(apop_p(d, m))`; the other equation, `apop_p(d, m) = exp(apop_log_likelihood(d, m))`,
holds exactly when `exp(log(P)) = P`. -/
theorem apop_p_log_likelihood_consistent [Zero R] (exp log : R → R) (E : Env R)
    (d : Option Ptr) (q : Ptr) (m : apop_model) (w : World R) (hm : w.model q = .ok m) :
    (∀ g, m.p = none → m.log_likelihood = some g →
      ∃ P L, apop_p exp E d (some q) w = .ok (P, w) ∧
        apop_log_likelihood log E d (some q) w = .ok (L, w) ∧
        L = E.log_likelihood g d (some q) w ∧ P = exp L ∧
        (L = log P ↔ log (exp L) = L)) ∧
    (∀ f, m.log_likelihood = none → m.p = some f →
      ∃ P L, apop_p exp E d (some q) w = .ok (P, w) ∧
        apop_log_likelihood log E d (some q) w = .ok (L, w) ∧
        P = E.p f d (some q) w ∧ L = log P ∧
        (P = exp L ↔ exp (log P) = P)) := by
  constructor
  · intro g hp hg
    refine ⟨exp (E.log_likelihood g d (some q) w), E.log_likelihood g d (some q) w,
      ?_, ?_, rfl, rfl, eq_comm⟩
    · simp [apop_p, Nullcheck_m, hm, bind, Except.bind, pure, Except.pure, hp, hg]
    · simp [apop_log_likelihood, Nullcheck_m, hm, bind, Except.bind, pure, Except.pure, hp, hg]
  · intro f hl hf
    refine ⟨E.p f d (some q) w, log (E.p f d (some q) w), ?_, ?_, rfl, rfl, eq_comm⟩
    · simp [apop_p, Nullcheck_m, hm, bind, Except.bind, pure, Except.pure, hl, hf]
    · simp [apop_log_likelihood, Nullcheck_m, hm, bind, Except.bind, pure, Except.pure, hl, hf]

/-- The run of the amended C10 on `ll_only_world`, with the native log likelihood 0:
`apop_log_likelihood` is 0 and `apop_p` is `exp(0)`. -/
theorem apop_p_log_likelihood_consistent_witness :
    ll_only_world.model 0 = .ok ll_only_model ∧
    ∃ P L, apop_p libm_exp (const_env (some (.fin 1)) (some (.fin 0))) none (some 0)
        ll_only_world = .ok (P, ll_only_world) ∧
      apop_log_likelihood libm_log (const_env (some (.fin 1)) (some (.fin 0))) none (some 0)
        ll_only_world = .ok (L, ll_only_world) ∧
      L = (const_env (some (double.fin 1)) (some (double.fin 0))).log_likelihood 8 none (some 0)
        ll_only_world ∧
      P = libm_exp L ∧ (L = libm_log P ↔ libm_log (libm_exp L) = L) :=
  ⟨rfl,
    (apop_p_log_likelihood_consistent libm_exp libm_log
      (const_env (some (.fin 1)) (some (.fin 0))) none 0 ll_only_model ll_only_world rfl).1 8
      rfl rfl⟩

end claims

/-! ## Lemmas on the dispatchers -/

section lemmas_dispatch
variable {R : Type}

/-- What `apop_pm_settings_init` builds. -/
theorem apop_pm_settings_init_spec (in_ : apop_pm_settings) (w : World R) :
    (apop_pm_settings_init in_ w).1 = w.heap.length ∧
    (apop_pm_settings_init in_ w).2.pm w.heap.length =
      .ok { base := in_.base, index := apop_varad_setting in_.index 0,
            rng := match in_.rng with
              | some r => some r
              | none => some (w.heap.length + 1),
            draws := apop_varad_setting in_.draws 10000,
            own_rng := if in_.rng.isSome then 0 else 1 } := by
  refine ⟨rfl, ?_⟩
  have key : ∀ (W : World R) (s : apop_pm_settings), w.heap.length < W.heap.length →
      (W.store w.heap.length (.pm s)).pm w.heap.length = .ok s := by
    intro W s h
    simp only [World.pm, load_store_self _ h]
  cases hr : in_.rng with
  | some r =>
    simp only [apop_pm_settings_init, hr]
    exact key _ _ (by simp [World.alloc])
  | none =>
    simp only [apop_pm_settings_init, hr, apop_rng_alloc_next]
    have e : ((w.alloc (Obj.pm in_)).2.alloc (Obj.rng (w.alloc (Obj.pm in_)).2.rng_seed)).1 =
        w.heap.length + 1 := by
      simp [World.alloc]
    rw [e]
    exact key _ _ (by simp [World.alloc])


theorem lte_eq (gt : R → R → Bool) (v ref : List R) (h : v.length ≤ ref.length) :
    lte gt v ref = .ok (if all_le gt v ref then 1 else 0) := by
  induction v generalizing ref with
  | nil => simp [lte, all_le]
  | cons a v ih =>
    cases ref with
    | nil => simp at h
    | cons b ref =>
      have h1 : v.length ≤ ref.length := by simpa using h
      by_cases hg : gt a b = true
      · simp [lte, all_le, hg]
      · have hf : gt a b = false := by simpa using hg
        simp only [lte, hf, Bool.false_eq_true, if_false]
        rw [ih ref h1]
        unfold all_le
        simp only [List.zip_cons_cons, List.all_cons, hf, Bool.not_false, Bool.true_and]

theorem rng_of_load {w : World R} {p : Ptr} {s : Int} (h : w.load p = .ok (.rng s)) :
    w.rng p = .ok s := by
  simp [World.rng, h]

theorem load_of_rng {w : World R} {p : Ptr} {s : Int} (h : w.rng p = .ok s) :
    w.load p = .ok (.rng s) := by
  unfold World.rng at h
  split at h <;> simp_all

theorem apop_draw_ok (D : Externals R) {w : World R} {q rp : Ptr} {m : apop_model} {s : Int}
    (v : List R) (hm : w.model q = .ok m) (hs : w.rng rp = .ok s)
    (hfit : (model_draw D m s (some q) w).1.length ≤ v.length) :
    apop_draw D v (some rp) (some q) w =
      .ok ((model_draw D m s (some q) w).1 ++ v.drop (model_draw D m s (some q) w).1.length,
        w.store rp (.rng (model_draw D m s (some q) w).2)) ∧
    (w.store rp (.rng (model_draw D m s (some q) w).2)).model q = .ok m ∧
    (w.store rp (.rng (model_draw D m s (some q) w).2)).rng rp =
      .ok (model_draw D m s (some q) w).2 := by
  have hlr := load_of_rng hs
  have hlm := load_of_model hm
  have hne : q ≠ rp := fun e => by
    rw [e, hlr] at hlm
    cases hlm
  refine ⟨?_, model_of_load ((load_store_of_ne w _ hne).trans hlm),
    rng_of_load (load_store_self _ (load_ok_lt hlr))⟩
  unfold model_draw at hfit ⊢
  cases hd : m.draw with
  | none =>
    rw [hd] at hfit
    simp only [apop_draw, deref, hm, hd, run_draw, hs, write_buf, hfit, bind, Except.bind,
      pure, Except.pure, if_true]
  | some f =>
    rw [hd] at hfit
    simp only [apop_draw, deref, hm, hd, run_draw, hs, write_buf, hfit, bind, Except.bind,
      pure, Except.pure, if_true]


theorem draws_of_ok (D : Externals R) {q rp : Ptr} {m : apop_model} (N : Nat)
    (P : List R → Prop)
    (hstep : ∀ (s : Int) (w1 : World R) (old : List R), old.length = N →
      (model_draw D m s (some q) w1).1.length ≤ N ∧
      P ((model_draw D m s (some q) w1).1 ++ old.drop (model_draw D m s (some q) w1).1.length)) :
    ∀ (n : Nat) (v : List R) (w : World R) (s : Int), v.length = N → w.model q = .ok m →
      w.rng rp = .ok s →
      ∃ pts w2, draws_of D (some rp) (some q) n v w = .ok (pts, w2) ∧ pts.length = n ∧
        (∀ p ∈ pts, p.length = N ∧ P p) := by
  intro n
  induction n with
  | zero =>
    intro v w s _ _ _
    exact ⟨[], w, rfl, rfl, fun p hp => by cases hp⟩
  | succ n ih =>
    intro v w s hv hm hs
    obtain ⟨hfit, hP⟩ := hstep s w v hv
    obtain ⟨e, hm1, hs1⟩ := apop_draw_ok D v hm hs (by rw [hv]; exact hfit)
    have hlen : ((model_draw D m s (some q) w).1 ++
        v.drop (model_draw D m s (some q) w).1.length).length = N := by
      rw [List.length_append, List.length_drop, hv]
      omega
    obtain ⟨pts, w2, e2, hl, hall⟩ := ih _ _ _ hlen hm1 hs1
    refine ⟨((model_draw D m s (some q) w).1 ++
      v.drop (model_draw D m s (some q) w).1.length) :: pts, w2, ?_, by simp [hl], ?_⟩
    · simp only [draws_of, e, e2]
    · intro p hp
      rcases List.mem_cons.mp hp with h | h
      · rw [h]
        exact ⟨hlen, hP⟩
      · exact hall p h

theorem cdf_loop_eq (gt : R → R → Bool) (D : Externals R) (r m : Option Ptr) (ref : List R) :
    ∀ (n : Nat) (v : List R) (t : Int) (w : World R) (pts : List (List R)) (w2 : World R),
      draws_of D r m n v w = .ok (pts, w2) → (∀ p ∈ pts, p.length ≤ ref.length) →
      cdf_loop gt D r m ref n v t w =
        .ok (t + ((pts.filter (fun p => all_le gt p ref)).length : Int), w2) := by
  intro n
  induction n with
  | zero =>
    intro v t w pts w2 h _
    simp only [draws_of] at h
    injection h with h
    injection h with h1 h2
    subst h1 h2
    simp [cdf_loop]
  | succ n ih =>
    intro v t w pts w2 h hall
    simp only [draws_of] at h
    split at h
    · cases h
    · rename_i res hres
      split at h
      · cases h
      · rename_i rest hrest
        injection h with h
        injection h with h1 h2
        subst h1 h2
        have hl : res.1.length ≤ ref.length := hall _ (List.mem_cons_self _ _)
        have hall1 : ∀ p ∈ rest.1, p.length ≤ ref.length :=
          fun p hp => hall p (List.mem_cons_of_mem _ hp)
        simp only [cdf_loop, hres, lte_eq gt res.1 ref hl]
        rw [ih res.1 _ res.2 rest.1 rest.2 hrest hall1]
        by_cases hc : all_le gt res.1 ref = true
        · simp [hc, List.filter_cons, Int.add_assoc, Int.add_comm]
        · simp [hc, List.filter_cons]


theorem apop_cdf_fallback_eq [Inhabited R] (gt : R → R → Bool) (ratio : Int → Int → R)
    (D : Externals R) {w w0 : World R} {dp q cp rp : Ptr} {m m0 : apop_model}
    {x : apop_data R} {mat : gsl_matrix R} {cs : apop_cdf_settings} {s : Int}
    (hm : w.model q = .ok m) (hc : m.cdf = none)
    (hg : cdf_settings_of D (some q) w = .ok (some cp, w0))
    (hm0 : w0.model q = .ok m0)
    (hcs : w0.cdf cp = .ok cs) (hr : cs.rng = some rp) (hs : w0.rng rp = .ok s)
    (hd : w0.data dp = .ok x) (hx : x.matrix = some mat) (hrow : 0 < mat.size1)
    (hlen : mat.size2 ≤ mat.data.length) (P : List R → Prop)
    (hstep : ∀ (s : Int) (w1 : World R) (old : List R), old.length = mat.size2 →
      (model_draw D m0 s (some q) w1).1.length ≤ mat.size2 ∧
      P ((model_draw D m0 s (some q) w1).1 ++
        old.drop (model_draw D m0 s (some q) w1).1.length)) :
    ∃ pts w2, draws_of D (some rp) (some q) cs.draws.toNat
        (List.replicate mat.size2 default) w0 = .ok (pts, w2) ∧
      pts.length = cs.draws.toNat ∧ (∀ p ∈ pts, p.length = mat.size2 ∧ P p) ∧
      apop_cdf gt ratio D (some dp) (some q) w =
        .ok (ratio ((pts.filter (fun p => all_le gt p (mat.data.take mat.size2))).length : Int)
          cs.draws, w2) := by
  obtain ⟨pts, w2, e, hl, hall⟩ := @draws_of_ok R D q rp m0 mat.size2 P hstep cs.draws.toNat
    (List.replicate mat.size2 default) w0 s (by simp) hm0 hs
  have href : (mat.data.take mat.size2).length = mat.size2 := by
    rw [List.length_take]
    omega
  have hle : ∀ p ∈ pts, p.length ≤ (mat.data.take mat.size2).length := fun p hp => by
    rw [href]
    exact Nat.le_of_eq (hall p hp).1
  have hloop := cdf_loop_eq gt D (some rp) (some q) (mat.data.take mat.size2) cs.draws.toNat
    (List.replicate mat.size2 default) 0 w0 pts w2 e hle
  refine ⟨pts, w2, e, hl, hall, ?_⟩
  simp only [apop_cdf, deref, hm, hc, hg, hd, hx, gsl_matrix_row, hrow, hcs,
    hr, Nat.zero_mul, List.drop_zero, if_true, bind, Except.bind, pure, Except.pure, hloop,
    Int.zero_add]

theorem all_le_refl (v : List double) : all_le double_gt v v = true := by
  induction v with
  | nil => rfl
  | cons a v ih =>
    unfold all_le at ih ⊢
    simp only [List.zip_cons_cons, List.all_cons, ih, Bool.and_true]
    cases a <;> simp [double_gt]

theorem double_gt_of_le {a b : double} (h : double_le a b = true) : double_gt a b = false := by
  cases a <;> cases b <;> simp_all [double_le, double_gt]

theorem all_le_of_double_le : ∀ (v ref : List double),
    (v.zip ref).all (fun p => double_le p.1 p.2) = true → all_le double_gt v ref = true
  | [], _, _ => rfl
  | _ :: _, [], _ => rfl
  | a :: v, b :: ref, h => by
    unfold all_le
    simp only [List.zip_cons_cons, List.all_cons, Bool.and_eq_true] at h ⊢
    exact ⟨by rw [double_gt_of_le h.1]; rfl, all_le_of_double_le v ref h.2⟩

theorem round_half_even_int (n : Int) : round_half_even (n : ℚ) = n := by
  unfold round_half_even
  simp

theorem double_round_zero : double_round 0 = .fin 0 := by
  unfold double_round
  have h1 : Int.log 2 |(0 : ℚ)| = 0 := by simp
  have h2 : round_half_even ((0 : ℚ) / 2 ^ (max (0 : Int) (-1022) - 52)) = 0 := by
    rw [zero_div]
    exact_mod_cast round_half_even_int 0
  simp only [h1, h2, Int.cast_zero, zero_mul]
  rw [if_neg (by norm_num), if_neg (by norm_num)]

theorem double_round_one : double_round 1 = .fin 1 := by
  have h1 : Int.log 2 |(1 : ℚ)| = 0 := by simp
  have h2 : ((1 : ℚ) / 2 ^ ((0 : Int) - 52)) = ((2 ^ 52 : Int) : ℚ) := by
    norm_num [zpow_neg]
  unfold double_round
  simp only [h1]
  have h3 : max (0 : Int) (-1022) = 0 := by decide
  rw [h3, h2, round_half_even_int]
  norm_num [zpow_neg]

theorem double_ratio_of_pos (t n : Int) (h : 1 ≤ n) :
    double_ratio t n = double_round ((t : ℚ) / (n : ℚ)) := by
  have : n ≠ 0 := by omega
  simp [double_ratio, this]

theorem append_drop_of_length_eq {α : Type} (vals old : List α) (h : vals.length = old.length) :
    vals ++ old.drop vals.length = vals := by
  rw [h, List.drop_length, List.append_nil]

theorem apop_cdf_all_counted (D : Externals double) {w w0 : World double} {dp q cp rp : Ptr}
    {m m0 : apop_model} {x : apop_data double} {mat : gsl_matrix double}
    {cs : apop_cdf_settings} {s : Int}
    (hm : w.model q = .ok m) (hc : m.cdf = none)
    (hg : cdf_settings_of D (some q) w = .ok (some cp, w0))
    (hm0 : w0.model q = .ok m0)
    (hcs : w0.cdf cp = .ok cs) (hr : cs.rng = some rp) (hs : w0.rng rp = .ok s)
    (hd : w0.data dp = .ok x) (hx : x.matrix = some mat) (hrow : 0 < mat.size1)
    (hlen : mat.size2 ≤ mat.data.length) (hn : 1 ≤ cs.draws)
    (pt : List double) (hpt : pt.length = mat.size2)
    (hle : all_le double_gt pt (mat.data.take mat.size2) = true)
    (hdet : ∀ (s : Int) (w1 : World double), (model_draw D m0 s (some q) w1).1 = pt) :
    ∃ w2, apop_cdf double_gt double_ratio D (some dp) (some q) w = .ok (.fin 1, w2) := by
  have hne : (cs.draws : ℚ) ≠ 0 := by
    have : cs.draws ≠ 0 := by omega
    exact_mod_cast this
  obtain ⟨pts, w2, -, hl, hall, hcdf⟩ := apop_cdf_fallback_eq double_gt double_ratio D hm hc
    hg hm0 hcs hr hs hd hx hrow hlen
    (fun p => all_le double_gt p (mat.data.take mat.size2) = true)
    (fun s w1 old ho => by
      rw [hdet s w1, append_drop_of_length_eq pt old (by rw [hpt, ho])]
      exact ⟨Nat.le_of_eq hpt, hle⟩)
  have hf : pts.filter (fun p => all_le double_gt p (mat.data.take mat.size2)) = pts :=
    List.filter_eq_self.mpr (fun p hp => (hall p hp).2)
  refine ⟨w2, ?_⟩
  rw [hcdf, hf, hl, Int.toNat_of_nonneg (by omega), double_ratio_of_pos _ _ hn,
    div_self hne, double_round_one]

end lemmas_dispatch

/-! ## The claims on the dispatchers, the parameter model and the OLS inventory -/

section claims_dispatch
variable {R : Type}

/-- C11, the failing runs: with a null model pointer `apop_p`, `apop_log_likelihood`
and `apop_score` stop at `Nullcheck_m` with the error "m is a NULL model.", but
`apop_draw`, `apop_prep`, `apop_cdf` and `apop_predict` have no such check and stop on
a read of a field of the model through `NULL`; `apop_parameter_model` first hands the
null model to the settings store and, if the store returns, stops on the read of
`m->parameter_model` through `NULL`. -/
theorem dispatchers_null_model [Inhabited R] [Zero R] (exp log : R → R) (isnan : R → Bool)
    (nan : R) (gt : R → R → Bool) (ratio : Int → Int → R)
    (call : HookFn → Option Ptr → World R → Except Fault (World R)) (D : Externals R)
    (d r : Option Ptr) (out : List R) (w : World R) :
    apop_p exp D.toEnv d none w = .error (.invalid_argument "m is a NULL model.") ∧
    apop_log_likelihood log D.toEnv d none w = .error (.invalid_argument "m is a NULL model.") ∧
    apop_score D d out none w = .error (.invalid_argument "m is a NULL model.") ∧
    apop_draw D out r none w = .error .null_deref ∧
    apop_prep D.toEnv d none w = .error .null_deref ∧
    apop_cdf gt ratio D d none w = .error .null_deref ∧
    apop_predict isnan nan call D d none w = .error .null_deref ∧
    apop_parameter_model call D d none w =
      (pm_settings_of D none w).bind (fun _ => .error .null_deref) := by
  refine ⟨rfl, rfl, rfl, rfl, rfl, rfl, ?_, ?_⟩
  · cases d with
    | none => rfl
    | some dp => rfl
  · unfold apop_parameter_model
    cases pm_settings_of D none w <;> rfl

/-- C12, as stated, fails: on `predict_world` the data set at address 1 has no NaN
entry and the native `predict` returns no prediction, but it has overwritten the
entries with NaN; `apop_predict` tests the data set after that call, finds missing
entries and calls the imputation routine.  With a routine that stops, `apop_predict`
stops; with a routine that returns, `apop_predict` returns the data set with its
entries overwritten. -/
theorem apop_predict_imputes_after_predict :
    predict_world.data 1 = .ok (query_data [.fin 1, .fin 2]) ∧
    apop_map_sum_disnan double_isnan (query_data [.fin 1, .fin 2]) = 0 ∧
    (∃ w1, (nan_predict_externals (fun _ _ _ => .error (.invalid_argument "imputation"))).predict
      5 (some 1) (some 0) predict_world = .ok (none, w1)) ∧
    apop_predict double_isnan .nan (call_free (const_env (.fin 0) (.fin 0)) 1)
        (nan_predict_externals (fun _ _ _ => .error (.invalid_argument "imputation")))
        (some 1) (some 0) predict_world = .error (.invalid_argument "imputation") ∧
    (∃ w2 x, apop_predict double_isnan .nan (call_free (const_env (.fin 0) (.fin 0)) 1)
        (nan_predict_externals (fun _ _ w => .ok (none, w)))
        (some 1) (some 0) predict_world = .ok (some 1, w2) ∧
      w2.data 1 = .ok x ∧ x.matrix.map (fun y => y.data) = some [.nan, .nan]) :=
  ⟨rfl, rfl, ⟨_, rfl⟩, rfl, ⟨_, _, rfl, rfl, rfl⟩⟩

/-- C12, amended: for every non-null data set `d` without NaN entries and every model,
if the model has no `predict` slot, `apop_predict(d, m)` returns `d` and leaves the
heap, so every entry of `d`, as it is; if the native `predict` yields no prediction
and leaves `d` without NaN entries, `apop_predict` returns `d` and changes nothing
after the native call; if the native `predict` yields a prediction, that prediction is
returned.  In the three cases the result is the same whatever the imputation routine
would do: it is not called. -/
theorem apop_predict_no_missing [Inhabited R] (isnan : R → Bool) (nan : R)
    (call : HookFn → Option Ptr → World R → Except Fault (World R)) (D : Externals R)
    (dp q : Ptr) (x : apop_data R) (m : apop_model) (w : World R)
    (hd : w.data dp = .ok x) (hm : w.model q = .ok m)
    (hnan : apop_map_sum_disnan isnan x = 0) :
    (m.predict = none → ∀ imp,
      apop_predict isnan nan call { D with apop_ml_imputation := imp } (some dp) (some q) w =
        .ok (some dp, w)) ∧
    (∀ f w1 x1, m.predict = some f → D.predict f (some dp) (some q) w = .ok (none, w1) →
      w1.data dp = .ok x1 → apop_map_sum_disnan isnan x1 = 0 → ∀ imp,
      apop_predict isnan nan call { D with apop_ml_imputation := imp } (some dp) (some q) w =
        .ok (some dp, w1)) ∧
    (∀ f r w1, m.predict = some f → D.predict f (some dp) (some q) w = .ok (some r, w1) →
      ∀ imp,
      apop_predict isnan nan call { D with apop_ml_imputation := imp } (some dp) (some q) w =
        .ok (some r, w1)) := by
  refine ⟨fun hp imp => ?_, fun f w1 x1 hp hr hd1 hn1 imp => ?_, fun f r w1 hp hr imp => ?_⟩
  · simp [apop_predict, deref, hm, hp, hd, hnan, bind, Except.bind, pure, Except.pure]
  · simp [apop_predict, deref, hm, hp, hr, hd1, hn1, bind, Except.bind, pure, Except.pure]
  · simp [apop_predict, deref, hm, hp, hr, bind, Except.bind, pure, Except.pure]

/-- The run of the amended C12 on `example_world`: the model has no `predict`, no
entry of the data set at address 1 is NaN, and the data set is returned whatever the
imputation routine is. -/
theorem apop_predict_no_missing_witness :
    example_world.data 1 = .ok example_data ∧ example_world.model 0 = .ok example_model ∧
    apop_map_sum_disnan (fun _ => false) example_data = 0 ∧
    ∀ imp, apop_predict (fun _ => false) 0 (call_free (const_env 0 0) 1)
        { const_externals 0 0 [] none example_model with apop_ml_imputation := imp }
        (some 1) (some 0) example_world = .ok (some 1, example_world) :=
  ⟨rfl, rfl, rfl,
    (apop_predict_no_missing (fun _ => false) 0 (call_free (const_env 0 0) 1)
      (const_externals 0 0 [] none example_model) 1 0 example_data example_model
      example_world rfl rfl rfl).1 rfl⟩

/-- C14: for every draw count `≥ 1`, if every draw of the model is one point none of
whose components is greater than the component of the query point at the same place,
in particular a point whose components are `<=` those of the query point, or the query
point itself, the fallback of `apop_cdf` returns exactly 1; if every draw has a
component greater than that of the query point, it returns exactly 0.  The settings group is the one that the model has or the one attached on the first
call. -/
theorem apop_cdf_extremes (D : Externals double) (w w0 : World double) (dp q cp rp : Ptr)
    (m m0 : apop_model) (x : apop_data double) (mat : gsl_matrix double)
    (cs : apop_cdf_settings) (s : Int)
    (hm : w.model q = .ok m) (hc : m.cdf = none)
    (hg : cdf_settings_of D (some q) w = .ok (some cp, w0))
    (hm0 : w0.model q = .ok m0)
    (hcs : w0.cdf cp = .ok cs) (hr : cs.rng = some rp) (hs : w0.rng rp = .ok s)
    (hd : w0.data dp = .ok x) (hx : x.matrix = some mat) (hrow : 0 < mat.size1)
    (hlen : mat.size2 ≤ mat.data.length) (hn : 1 ≤ cs.draws) :
    (∀ pt : List double, pt.length = mat.size2 →
      all_le double_gt pt (mat.data.take mat.size2) = true →
      (∀ (s : Int) (w1 : World double), (model_draw D m0 s (some q) w1).1 = pt) →
      ∃ w2, apop_cdf double_gt double_ratio D (some dp) (some q) w = .ok (.fin 1, w2)) ∧
    (∀ pt : List double, pt.length = mat.size2 →
      (pt.zip (mat.data.take mat.size2)).all (fun p => double_le p.1 p.2) = true →
      (∀ (s : Int) (w1 : World double), (model_draw D m0 s (some q) w1).1 = pt) →
      ∃ w2, apop_cdf double_gt double_ratio D (some dp) (some q) w = .ok (.fin 1, w2)) ∧
    ((∀ (s : Int) (w1 : World double),
        (model_draw D m0 s (some q) w1).1 = mat.data.take mat.size2) →
      ∃ w2, apop_cdf double_gt double_ratio D (some dp) (some q) w = .ok (.fin 1, w2)) ∧
    ((∀ (s : Int) (w1 : World double),
        (model_draw D m0 s (some q) w1).1.length = mat.size2 ∧
        all_le double_gt (model_draw D m0 s (some q) w1).1 (mat.data.take mat.size2) = false) →
      ∃ w2, apop_cdf double_gt double_ratio D (some dp) (some q) w = .ok (.fin 0, w2)) := by
  have href : (mat.data.take mat.size2).length = mat.size2 := by
    rw [List.length_take]
    omega
  have one : ∀ pt : List double, pt.length = mat.size2 →
      all_le double_gt pt (mat.data.take mat.size2) = true →
      (∀ (s : Int) (w1 : World double), (model_draw D m0 s (some q) w1).1 = pt) →
      ∃ w2, apop_cdf double_gt double_ratio D (some dp) (some q) w = .ok (.fin 1, w2) :=
    fun pt hpt hle hdet =>
      apop_cdf_all_counted D hm hc hg hm0 hcs hr hs hd hx hrow hlen hn pt hpt hle hdet
  refine ⟨one, fun pt hpt hle hdet => one pt hpt (all_le_of_double_le _ _ hle) hdet,
    fun hdet => one _ href (all_le_refl _) hdet, fun hgt => ?_⟩
  obtain ⟨pts, w2, -, -, hall, hcdf⟩ := apop_cdf_fallback_eq double_gt double_ratio D hm hc
    hg hm0 hcs hr hs hd hx hrow hlen
    (fun p => all_le double_gt p (mat.data.take mat.size2) = false)
    (fun s w1 old ho => by
      rw [append_drop_of_length_eq _ old (by rw [(hgt s w1).1, ho])]
      exact ⟨Nat.le_of_eq (hgt s w1).1, (hgt s w1).2⟩)
  have hf : pts.filter (fun p => all_le double_gt p (mat.data.take mat.size2)) = [] :=
    List.filter_eq_nil_iff.mpr (fun p hp => by simp [(hall p hp).2])
  refine ⟨w2, ?_⟩
  rw [hcdf, hf, double_ratio_of_pos _ _ hn]
  simp [double_round_zero]

/-- The runs of C14 with one draw.  On `mc_world 1 [1, 2]` a draw that always gives
the query point (1, 2) makes `apop_cdf` return 1, and a draw that always gives (5, 0),
whose first component is above the query point, makes it return 0.  On
`mc_world 1 [-inf, -inf]`, a query point below every finite number, the draw (1, 2)
makes it return 0. -/
theorem apop_cdf_extremes_witness :
    (mc_world 1 [.fin 1, .fin 2]).model 0 = .ok draw_model ∧
    (∃ w2, apop_cdf double_gt double_ratio
        (const_externals .nan .nan [.fin 1, .fin 2] (some 2) example_model)
        (some 1) (some 0) (mc_world 1 [.fin 1, .fin 2]) = .ok (.fin 1, w2)) ∧
    (∃ w2, apop_cdf double_gt double_ratio
        (const_externals .nan .nan [.fin 5, .fin 0] (some 2) example_model)
        (some 1) (some 0) (mc_world 1 [.fin 1, .fin 2]) = .ok (.fin 0, w2)) ∧
    (∃ w2, apop_cdf double_gt double_ratio
        (const_externals .nan .nan [.fin 1, .fin 2] (some 2) example_model)
        (some 1) (some 0) (mc_world 1 [.ninf, .ninf]) = .ok (.fin 0, w2)) :=
  ⟨rfl,
    (apop_cdf_extremes (const_externals .nan .nan [.fin 1, .fin 2] (some 2) example_model)
      (mc_world 1 [.fin 1, .fin 2]) (mc_world 1 [.fin 1, .fin 2]) 1 0 2 3 draw_model draw_model
      (query_data [.fin 1, .fin 2]) { size1 := 1, size2 := 2, data := [.fin 1, .fin 2] }
      { cdf_model := none, draws := 1, rng := some 3 } 7
      rfl rfl rfl rfl rfl rfl rfl rfl rfl (by decide) (by decide) (by decide)).2.2.1
      (fun _ _ => rfl),
    (apop_cdf_extremes (const_externals .nan .nan [.fin 5, .fin 0] (some 2) example_model)
      (mc_world 1 [.fin 1, .fin 2]) (mc_world 1 [.fin 1, .fin 2]) 1 0 2 3 draw_model draw_model
      (query_data [.fin 1, .fin 2]) { size1 := 1, size2 := 2, data := [.fin 1, .fin 2] }
      { cdf_model := none, draws := 1, rng := some 3 } 7
      rfl rfl rfl rfl rfl rfl rfl rfl rfl (by decide) (by decide) (by decide)).2.2.2
      (fun _ _ => ⟨rfl, rfl⟩),
    (apop_cdf_extremes (const_externals .nan .nan [.fin 1, .fin 2] (some 2) example_model)
      (mc_world 1 [.ninf, .ninf]) (mc_world 1 [.ninf, .ninf]) 1 0 2 3 draw_model draw_model
      (query_data [.ninf, .ninf]) { size1 := 1, size2 := 2, data := [.ninf, .ninf] }
      { cdf_model := none, draws := 1, rng := some 3 } 7
      rfl rfl rfl rfl rfl rfl rfl rfl rfl (by decide) (by decide) (by decide)).2.2.2
      (fun _ _ => ⟨rfl, rfl⟩)⟩

/-- C15, the failing run: on `pm_world` the parameters of the model are a matrix of two
rows and three columns, so the packed parameter vector has 6 elements, but the table
that `apop_parameter_model` allocates for 100 draws has 100 rows of
`vsize + msize1 + msize2` = 5 columns; the packed parameters of the first estimate do
not fit the first row and `apop_data_pack` rejects them. -/
theorem apop_parameter_model_table_columns :
    (Get_vmsizes (param_draws_alloc matrix_params 100)).msize1 = 100 ∧
    (Get_vmsizes (param_draws_alloc matrix_params 100)).msize2 = 5 ∧
    (Get_vmsizes matrix_params).tsize = 6 ∧
    (packed matrix_params).length = 6 ∧
    apop_parameter_model (call_free (const_env 0 0) 1)
        (const_externals 0 0 [] (some 2) example_model) none (some 0) pm_world =
      .error (.invalid_argument "The input data set and the output vector differ in size.") :=
  ⟨rfl, rfl, rfl, rfl, rfl⟩

/-- C16: a settings group that `apop_pm_settings_init` builds from an input with
`index` and `draws` unspecified has index 0 and draw count 10,000; and when
`apop_parameter_model` finds no `apop_pm` group on the model, it builds a group with
these defaults and the model itself as `base`, attaches it to the model with the hooks
`apop_pm_settings_free` and `apop_pm_settings_copy`, and goes on with that group. -/
theorem apop_pm_settings_defaults [Inhabited R]
    (call : HookFn → Option Ptr → World R → Except Fault (World R)) (D : Externals R)
    (d : Option Ptr) (m b r : Option Ptr) (o : Int) (w : World R) :
    (∃ s, (apop_pm_settings_init
          { base := b, index := 0, rng := r, draws := 0, own_rng := o } w).2.pm
        (apop_pm_settings_init
          { base := b, index := 0, rng := r, draws := 0, own_rng := o } w).1 = .ok s ∧
      s.index = 0 ∧ s.draws = 10000 ∧ s.base = b) ∧
    (D.apop_settings_get_group m "apop_pm" w = none →
      ∃ p w1 s, apop_pm_settings_init
          { base := m, index := 0, rng := none, draws := 0, own_rng := 0 } w = (p, w1) ∧
        w1.pm p = .ok s ∧ s.base = m ∧ s.index = 0 ∧ s.draws = 10000 ∧
        apop_parameter_model call D d m w =
          (D.apop_settings_group_alloc m "apop_pm" (some .apop_pm_settings_free)
            (some .apop_pm_settings_copy) (some p) w1).bind
            (fun w2 => parameter_model_dispatch call D d m (some p) w2)) := by
  constructor
  · obtain ⟨h1, h2⟩ := apop_pm_settings_init_spec
      { base := b, index := 0, rng := r, draws := 0, own_rng := o } w
    rw [h1]
    exact ⟨_, h2, rfl, rfl, rfl⟩
  · intro hg
    obtain ⟨h1, h2⟩ := apop_pm_settings_init_spec
      { base := m, index := 0, rng := none, draws := 0, own_rng := 0 } w
    rw [← h1] at h2
    simp only [apop_parameter_model, pm_settings_of, hg]
    generalize apop_pm_settings_init
      { base := m, index := 0, rng := none, draws := 0, own_rng := 0 } w = a at h2 ⊢
    refine ⟨a.1, a.2, _, rfl, h2, rfl, rfl, rfl, ?_⟩
    cases D.apop_settings_group_alloc m "apop_pm" (some .apop_pm_settings_free)
      (some .apop_pm_settings_copy) (some a.1) a.2 <;> rfl

/-- The run of C16 on `pm_native_world` with a settings store that holds no group:
`apop_parameter_model` builds the group at the new address 1, with index 0, 10,000
draws and the model at address 0 as `base`, and the native `parameter_model` is called
in the heap that holds it. -/
theorem apop_pm_settings_defaults_witness :
    (∃ p w1 s, apop_pm_settings_init
        { base := some 0, index := 0, rng := none, draws := 0, own_rng := 0 } pm_native_world =
        (p, w1) ∧
      w1.pm p = .ok s ∧ s.base = some 0 ∧ s.index = 0 ∧ s.draws = 10000 ∧
      apop_parameter_model (call_free (const_env 0 0) 1)
          (const_externals 0 0 [] none example_model) none (some 0) pm_native_world =
        ((const_externals 0 0 [] none example_model).apop_settings_group_alloc (some 0)
          "apop_pm" (some .apop_pm_settings_free) (some .apop_pm_settings_copy) (some p)
          w1).bind
          (fun w2 => parameter_model_dispatch (call_free (const_env 0 0) 1)
            (const_externals 0 0 [] none example_model) none (some 0) (some p) w2)) ∧
    (∃ w2, apop_parameter_model (call_free (const_env 0 0) 1)
          (const_externals 0 0 [] none example_model) none (some 0) pm_native_world =
        .ok (some 0, w2) ∧
      w2.pm 1 = .ok { base := some 0, index := 0, rng := some 2, draws := 10000,
                      own_rng := 1 }) :=
  ⟨(apop_pm_settings_defaults (call_free (const_env 0 0) 1)
      (const_externals 0 0 [] none example_model) none (some 0) none none 0
      pm_native_world).2 rfl,
    ⟨_, rfl, rfl⟩⟩

/-- C17: for every data set `d`, possibly null, and every model, `apop_prep` is the
call of the model's `prep` on `(d, m)`, and nothing else, when the `prep` slot is
present, and is exactly `apop_model_clear(d, m)` when the slot is absent: the two end
in the same state, or stop in the same way. -/
theorem apop_prep_dispatch [Inhabited R] (E : Env R) (d : Option Ptr) (q : Ptr)
    (m : apop_model) (w : World R) (hm : w.model q = .ok m) :
    (∀ f, m.prep = some f → apop_prep E d (some q) w = E.prep f d (some q) w) ∧
    (m.prep = none →
      apop_prep E d (some q) w = (apop_model_clear d (some q) w).map Prod.snd) := by
  constructor
  · intro f hf
    simp only [apop_prep, deref, hm, hf, bind, Except.bind]
  · intro hf
    simp only [apop_prep, deref, hm, hf, bind, Except.bind, pure, Except.pure]
    cases apop_model_clear d (some q) w <;> rfl

/-- The run of C17 on `example_world`, whose model has no `prep`. -/
theorem apop_prep_dispatch_witness :
    example_world.model 0 = .ok example_model ∧
    apop_prep (const_env (0 : Int) 0) (some 1) (some 0) example_world =
      (apop_model_clear (some 1) (some 0) example_world).map Prod.snd :=
  ⟨rfl,
    (apop_prep_dispatch (const_env (0 : Int) 0) (some 1) 0 example_model example_world
      rfl).2 rfl⟩

/-- C18, as stated, fails: for a name structure without column names
`prep_inventory_OLS` reads `n->colnames[0]` beyond the names and produces no
inventory. -/
theorem prep_inventory_OLS_no_column_faults :
    prep_inventory_OLS (some { colnames := [], rownames := [], depnames := [] }) none =
      .error .out_of_bounds := rfl

/-- C18, amended: for every requested inventory `in`, null or not, and every name
structure `n` that is null or has at least one column name, `prep_inventory_OLS`
produces an inventory with `parameters = 1`, `log_likelihood = 0` and
`covariance = 1`; `names = 1` exactly when `n` is non-null, and 0 otherwise; and when
`in` is non-null every other field equals the requested one. -/
theorem prep_inventory_OLS_rule (n : Option apop_name) (in_ : Option apop_inventory)
    (hn : ∀ nm, n = some nm → nm.colnames ≠ []) :
    ∃ n1 out, prep_inventory_OLS n in_ = .ok (n1, out) ∧
      out.parameters = 1 ∧ out.log_likelihood = 0 ∧ out.covariance = 1 ∧
      (out.names = 1 ↔ n ≠ none) ∧ (n = none → out.names = 0) ∧
      (∀ i, in_ = some i → out.confidence = i.confidence ∧ out.predicted = i.predicted ∧
        out.residuals = i.residuals) := by
  cases n with
  | none =>
    cases in_ with
    | none => exact ⟨_, _, rfl, rfl, rfl, rfl, by simp, fun _ => rfl, fun i hi => by cases hi⟩
    | some i =>
      refine ⟨_, _, rfl, rfl, rfl, rfl, by simp, fun _ => rfl, fun j hj => ?_⟩
      injection hj with hj
      subst hj
      exact ⟨rfl, rfl, rfl⟩
  | some nm =>
    have h := hn nm rfl
    cases hc : nm.colnames with
    | nil => exact absurd hc h
    | cons c rest =>
      cases in_ with
      | none =>
        simp only [prep_inventory_OLS, hc]
        exact ⟨_, _, rfl, rfl, rfl, rfl, by simp, fun h0 => (by cases h0),
          fun i hi => (by cases hi)⟩
      | some i =>
        simp only [prep_inventory_OLS, hc]
        refine ⟨_, _, rfl, rfl, rfl, rfl, by simp, fun h0 => (by cases h0), fun j hj => ?_⟩
        injection hj with hj
        subst hj
        exact ⟨rfl, rfl, rfl⟩

/-- The run of the amended C18 on a name structure with the columns "y" and "x" and
a requested inventory that asks for nothing. -/
theorem prep_inventory_OLS_rule_witness :
    ∃ n1 out, prep_inventory_OLS
        (some { colnames := ["y", "x"], rownames := [], depnames := [] })
        (some (apop_inventory_set 0)) = .ok (n1, out) ∧
      out.parameters = 1 ∧ out.log_likelihood = 0 ∧ out.covariance = 1 ∧
      (out.names = 1 ↔
        (some { colnames := ["y", "x"], rownames := [], depnames := [] } : Option apop_name)
          ≠ none) ∧
      ((some { colnames := ["y", "x"], rownames := [], depnames := [] } : Option apop_name)
          = none → out.names = 0) ∧
      (∀ i, some (apop_inventory_set 0) = some i → out.confidence = i.confidence ∧
        out.predicted = i.predicted ∧ out.residuals = i.residuals) :=
  prep_inventory_OLS_rule (some { colnames := ["y", "x"], rownames := [], depnames := [] })
    (some (apop_inventory_set 0)) (fun nm h => by
      injection h with h
      subst h
      decide)

/-- C19, the failing run: a model with `vbase = 1`, `m1base = 0`, `m2base = 0` and no
`prep` passes the guard of `apop_model_set_parameters_base`, but its `dsize` is `-1`,
which the guard does not look at, and `apop_prep(NULL, copy)` reads
`data->matrix->size2` through the null data set. -/
theorem apop_model_set_parameters_base_dsize_faults :
    apop_model_set_parameters_base (const_env (0 : Int) 0)
      { example_model with vbase := 1, m1base := 0, m2base := 0, dsize := -1 } [5]
      example_world = .error .null_deref := rfl

end claims_dispatch

end Apophenia
